import Mathlib

/-!
Shallow embedding of the Verinode smart-contract programs
(`src/contracts/src/atomicSwap.rs`, `chainVerifier.rs`, `lib.rs`,
`messagePassing.rs`) and proofs about the behaviour of their operations.

Modelling conventions:
* `u64` values are `Nat`; arithmetic the Rust code performs on `u64` is
  reduced modulo `2^64` (release-profile wrapping semantics) via `w64`.
* `Pubkey` / `Address` values are `Nat`.
* Byte vectors (`Vec<u8>`) are `List Nat`.
* `HashMap` is an association list with `mapLookup` / `mapInsert` /
  `mapRemove`; `insert` replaces any entry with the same key, as the Rust
  `HashMap::insert` does.
* The SHA-256 primitive comes from the external `sha2` crate, not from this
  repository; it is modelled as an explicit function parameter
  `sha : List Nat → List Nat` threaded through every operation that hashes.
* Each instruction handler reads host account data, mutates it and
  serializes it back; every error path in the source returns before the
  serialize call, so the handlers are modelled as pure functions
  `state → … → Except ProgramError state` where an `Except.error` result
  leaves the stored state unchanged by construction.
* The caller account is modelled by its pubkey plus its `is_signer` flag;
  the ledger clock (`Clock::get()`) is an explicit `now : Nat` argument.
-/

namespace Verinode

/-- `2^64`, the modulus of Rust `u64` arithmetic. -/
def U64 : Nat := 18446744073709551616

/-- Wrapping `u64` reduction. -/
def w64 (n : Nat) : Nat := n % U64

/-- Wrapping `u64` subtraction, for `clock.unix_timestamp as u64 - created_at`. -/
def w64sub (a b : Nat) : Nat := (a + (U64 - b % U64)) % U64

/-- Association-list lookup, modelling `HashMap::get`. -/
def mapLookup {κ α : Type} [DecidableEq κ] (k : κ) : List (κ × α) → Option α
  | [] => none
  | (k', v) :: r => if k' = k then some v else mapLookup k r

/-- Remove every binding of a key, modelling `HashMap::remove`. -/
def mapRemove {κ α : Type} [DecidableEq κ] (k : κ) : List (κ × α) → List (κ × α)
  | [] => []
  | (k', v) :: r => if k' = k then mapRemove k r else (k', v) :: mapRemove k r

/-- Insert-or-replace, modelling `HashMap::insert`. -/
def mapInsert {κ α : Type} [DecidableEq κ] (k : κ) (v : α) (m : List (κ × α)) :
    List (κ × α) :=
  (k, v) :: mapRemove k m

/-- Membership test, modelling `HashMap::contains_key`. -/
def mapContains {κ α : Type} [DecidableEq κ] (k : κ) (m : List (κ × α)) : Bool :=
  (mapLookup k m).isSome

deriving instance DecidableEq for Except

/-- `solana_program::program_error::ProgramError`, restricted to the
variants the embedded handlers produce. -/
inductive ProgramError
  | MissingRequiredSignature
  | InvalidAccountData
  | InvalidArgument
  | AccountAlreadyInitialized
  | InvalidInstructionData
  deriving DecidableEq, Repr

namespace AtomicSwap

/-- `AssetInfo` in `atomicSwap.rs`. -/
structure AssetInfo where
  token_address : List Nat
  amount : Nat
  decimals : Nat
  deriving DecidableEq, Repr

/-- `DepositInfo` in `atomicSwap.rs`. -/
structure DepositInfo where
  transaction_hash : List Nat
  block_number : Nat
  confirmed_at : Nat
  proof : List Nat
  deriving DecidableEq, Repr

/-- `SwapStatus` in `atomicSwap.rs`. -/
inductive SwapStatus
  | Initiated
  | Deposited
  | Redeemed
  | Refunded
  | Expired
  | Cancelled
  deriving DecidableEq, Repr

/-- `AtomicSwap` record in `atomicSwap.rs`. -/
structure Swap where
  swap_id : String
  initiator : Nat
  participant : Option Nat
  initiator_chain : Nat
  participant_chain : Nat
  initiator_asset : AssetInfo
  participant_asset : AssetInfo
  initiator_deposit : Option DepositInfo
  participant_deposit : Option DepositInfo
  status : SwapStatus
  secret_hash : List Nat
  secret : Option (List Nat)
  timelock : Nat
  created_at : Nat
  expires_at : Nat
  refund_initiator : Bool
  refund_participant : Bool
  deriving DecidableEq, Repr

/-- `SwapStats` in `atomicSwap.rs`. -/
structure SwapStats where
  total_swaps : Nat
  completed_swaps : Nat
  refunded_swaps : Nat
  expired_swaps : Nat
  total_volume : Nat
  average_swap_time : Nat
  deriving DecidableEq, Repr

/-- `SwapState` in `atomicSwap.rs`. -/
structure SwapState where
  is_initialized : Bool
  authority : Nat
  active_swaps : List (String × Swap)
  completed_swaps : List String
  swap_stats : SwapStats
  fee_rate : Nat
  min_timelock : Nat
  max_timelock : Nat
  deriving DecidableEq, Repr

/-- `InitSwapArgs` in `atomicSwap.rs`. -/
structure InitSwapArgs where
  swap_id : String
  initiator_chain : Nat
  participant_chain : Nat
  initiator_asset : AssetInfo
  participant_asset : AssetInfo
  secret_hash : List Nat
  timelock : Nat
  deriving DecidableEq, Repr

/-- `ParticipateSwapArgs` in `atomicSwap.rs`. -/
structure ParticipateSwapArgs where
  swap_id : String
  participant : Nat
  deriving DecidableEq, Repr

/-- `DepositArgs` in `atomicSwap.rs`. -/
structure DepositArgs where
  swap_id : String
  transaction_hash : List Nat
  block_number : Nat
  proof : List Nat
  deriving DecidableEq, Repr

/-- `RedeemArgs` in `atomicSwap.rs`. -/
structure RedeemArgs where
  swap_id : String
  secret : List Nat
  deriving DecidableEq, Repr

/-- `RefundArgs` in `atomicSwap.rs`. -/
structure RefundArgs where
  swap_id : String
  is_initiator : Bool
  deriving DecidableEq, Repr

/-- The `SwapState` produced by `initialize_swap_state` on a fresh account:
the default record of lines 170-187 with `is_initialized` set and the given
authority stored. -/
def initialSwapState (authority : Nat) : SwapState :=
  { is_initialized := true
    authority := authority
    active_swaps := []
    completed_swaps := []
    swap_stats :=
      { total_swaps := 0
        completed_swaps := 0
        refunded_swaps := 0
        expired_swaps := 0
        total_volume := 0
        average_swap_time := 0 }
    fee_rate := 1000
    min_timelock := 3600
    max_timelock := 604800 }

/-- `initiate_swap` (atomicSwap.rs lines 208-263). -/
def initiate_swap (s : SwapState) (initiator : Nat) (signer : Bool) (now : Nat)
    (args : InitSwapArgs) : Except ProgramError SwapState :=
  if ¬ signer then .error .MissingRequiredSignature
  else if mapContains args.swap_id s.active_swaps then
    .error .AccountAlreadyInitialized
  else if args.timelock < s.min_timelock ∨ args.timelock > s.max_timelock then
    .error .InvalidArgument
  else
    let sw : Swap :=
      { swap_id := args.swap_id
        initiator := initiator
        participant := none
        initiator_chain := args.initiator_chain
        participant_chain := args.participant_chain
        initiator_asset := args.initiator_asset
        participant_asset := args.participant_asset
        initiator_deposit := none
        participant_deposit := none
        status := .Initiated
        secret_hash := args.secret_hash
        secret := none
        timelock := args.timelock
        created_at := now
        expires_at := w64 (now + args.timelock)
        refund_initiator := false
        refund_participant := false }
    .ok { s with
            active_swaps := mapInsert args.swap_id sw s.active_swaps
            swap_stats := { s.swap_stats with
              total_swaps := w64 (s.swap_stats.total_swaps + 1)
              total_volume :=
                w64 (s.swap_stats.total_volume + args.initiator_asset.amount) } }

/-- `participate_swap` (atomicSwap.rs lines 265-299).  The source never
compares the signing account's key to anything, so `_participant_key` is
unused beyond the signer check. -/
def participate_swap (s : SwapState) (_participant_key : Nat) (signer : Bool)
    (args : ParticipateSwapArgs) : Except ProgramError SwapState :=
  if ¬ signer then .error .MissingRequiredSignature
  else
    match mapLookup args.swap_id s.active_swaps with
    | none => .error .InvalidArgument
    | some sw =>
      if sw.participant.isSome then .error .AccountAlreadyInitialized
      else if sw.status ≠ .Initiated then .error .InvalidAccountData
      else
        .ok { s with
                active_swaps :=
                  mapInsert args.swap_id
                    { sw with participant := some args.participant
                              status := .Deposited }
                    s.active_swaps }

/-- `deposit` (atomicSwap.rs lines 301-352). -/
def deposit (s : SwapState) (depositor : Nat) (signer : Bool) (now : Nat)
    (args : DepositArgs) : Except ProgramError SwapState :=
  if ¬ signer then .error .MissingRequiredSignature
  else
    match mapLookup args.swap_id s.active_swaps with
    | none => .error .InvalidArgument
    | some sw =>
      let dep : DepositInfo :=
        { transaction_hash := args.transaction_hash
          block_number := args.block_number
          confirmed_at := now
          proof := args.proof }
      let upd : Except ProgramError Swap :=
        if sw.initiator = depositor then
          if sw.initiator_deposit.isSome then .error .AccountAlreadyInitialized
          else .ok { sw with initiator_deposit := some dep }
        else if sw.participant = some depositor then
          if sw.participant_deposit.isSome then .error .AccountAlreadyInitialized
          else .ok { sw with participant_deposit := some dep }
        else .error .InvalidAccountData
      match upd with
      | .error e => .error e
      | .ok sw' =>
        let sw'' :=
          if sw'.initiator_deposit.isSome ∧ sw'.participant_deposit.isSome then
            { sw' with status := .Deposited }
          else sw'
        .ok { s with active_swaps := mapInsert args.swap_id sw'' s.active_swaps }

/-- `update_swap_stats` (atomicSwap.rs lines 516-520).  Note the divisor
uses `total_completed` as found in the stats record, which the caller has
already incremented for the swap being recorded. -/
def update_swap_stats (stats : SwapStats) (duration : Nat) : SwapStats :=
  { stats with
      average_swap_time :=
        w64 (w64 (stats.average_swap_time * stats.completed_swaps) + duration)
          / w64 (stats.completed_swaps + 1) }

/-- `redeem` (atomicSwap.rs lines 354-400).  `sha` is the SHA-256 primitive
of the external `sha2` crate.  The source never compares `_redeemer` to the
swap's participant; only the signer flag is checked. -/
def redeem (sha : List Nat → List Nat) (s : SwapState) (_redeemer : Nat)
    (signer : Bool) (now : Nat) (args : RedeemArgs) :
    Except ProgramError SwapState :=
  if ¬ signer then .error .MissingRequiredSignature
  else
    match mapLookup args.swap_id s.active_swaps with
    | none => .error .InvalidArgument
    | some sw =>
      if sw.status ≠ .Deposited then .error .InvalidAccountData
      else if sha args.secret ≠ sw.secret_hash then .error .InvalidArgument
      else
        -- the source sets `secret` and `status` on the map entry and then
        -- removes that entry from `active_swaps`, so the net map change is
        -- the removal
        let stats1 := { s.swap_stats with
          completed_swaps := w64 (s.swap_stats.completed_swaps + 1) }
        let duration := w64sub now sw.created_at
        .ok { s with
                active_swaps := mapRemove args.swap_id s.active_swaps
                completed_swaps := s.completed_swaps ++ [args.swap_id]
                swap_stats := update_swap_stats stats1 duration }

/-- `refund` (atomicSwap.rs lines 402-451). -/
def refund (s : SwapState) (refunder : Nat) (signer : Bool) (now : Nat)
    (args : RefundArgs) : Except ProgramError SwapState :=
  if ¬ signer then .error .MissingRequiredSignature
  else
    match mapLookup args.swap_id s.active_swaps with
    | none => .error .InvalidArgument
    | some sw =>
      if now < sw.expires_at then .error .InvalidArgument
      else
        let upd : Except ProgramError Swap :=
          if args.is_initiator then
            if sw.initiator ≠ refunder then .error .InvalidAccountData
            else .ok { sw with refund_initiator := true }
          else
            if sw.participant ≠ some refunder then .error .InvalidAccountData
            else .ok { sw with refund_participant := true }
        match upd with
        | .error e => .error e
        | .ok sw' =>
          if sw'.refund_initiator ∧ sw'.refund_participant then
            .ok { s with
                    active_swaps := mapRemove args.swap_id s.active_swaps
                    completed_swaps := s.completed_swaps ++ [args.swap_id]
                    swap_stats := { s.swap_stats with
                      refunded_swaps := w64 (s.swap_stats.refunded_swaps + 1) } }
          else
            .ok { s with
                    active_swaps := mapInsert args.swap_id sw' s.active_swaps }

/-- `cancel_swap` (atomicSwap.rs lines 453-486). -/
def cancel_swap (s : SwapState) (caller : Nat) (signer : Bool)
    (swap_id : String) : Except ProgramError SwapState :=
  if ¬ signer then .error .MissingRequiredSignature
  else if s.authority ≠ caller then .error .InvalidAccountData
  else
    match mapLookup swap_id s.active_swaps with
    | none => .error .InvalidArgument
    | some _ =>
      .ok { s with
              active_swaps := mapRemove swap_id s.active_swaps
              completed_swaps := s.completed_swaps ++ [swap_id] }

/-- `update_fee_rate` (atomicSwap.rs lines 488-514). -/
def update_fee_rate (s : SwapState) (caller : Nat) (signer : Bool)
    (new_rate : Nat) : Except ProgramError SwapState :=
  if ¬ signer then .error .MissingRequiredSignature
  else if s.authority ≠ caller then .error .InvalidAccountData
  else .ok { s with fee_rate := new_rate }

/-- One atomic-swap instruction, with its caller, signer flag, clock
reading and arguments (`AtomicSwapInstruction` dispatch, minus the
one-shot initialization). -/
inductive Op
  | initiate (caller : Nat) (signer : Bool) (now : Nat) (args : InitSwapArgs)
  | participate (caller : Nat) (signer : Bool) (args : ParticipateSwapArgs)
  | depositOp (caller : Nat) (signer : Bool) (now : Nat) (args : DepositArgs)
  | redeemOp (sha : List Nat → List Nat) (caller : Nat) (signer : Bool)
      (now : Nat) (args : RedeemArgs)
  | refundOp (caller : Nat) (signer : Bool) (now : Nat) (args : RefundArgs)
  | cancel (caller : Nat) (signer : Bool) (swap_id : String)
  | setFeeRate (caller : Nat) (signer : Bool) (rate : Nat)

/-- Commit semantics of one transaction: an `Err` aborts the transaction,
leaving the stored account data unchanged. -/
def commit (s : SwapState) (r : Except ProgramError SwapState) : SwapState :=
  match r with
  | .ok s' => s'
  | .error _ => s

/-- Apply one instruction to the stored state. -/
def applyOp (s : SwapState) : Op → SwapState
  | .initiate c g n a => commit s (initiate_swap s c g n a)
  | .participate c g a => commit s (participate_swap s c g a)
  | .depositOp c g n a => commit s (deposit s c g n a)
  | .redeemOp sha c g n a => commit s (redeem sha s c g n a)
  | .refundOp c g n a => commit s (refund s c g n a)
  | .cancel c g i => commit s (cancel_swap s c g i)
  | .setFeeRate c g r => commit s (update_fee_rate s c g r)

/-- States reachable from a freshly initialized swap account through any
sequence of instructions. -/
inductive Reachable (authority : Nat) : SwapState → Prop
  | init : Reachable authority (initialSwapState authority)
  | step (s : SwapState) (op : Op) :
      Reachable authority s → Reachable authority (applyOp s op)

/-- The invariant behind claim C9, in the strong form that holds of the
code: an active swap record never has its secret set and is never in
status `Redeemed` (redeemed swaps are removed from `active_swaps`). -/
def SecretInv (s : SwapState) : Prop :=
  ∀ id sw, mapLookup id s.active_swaps = some sw →
    sw.secret = none ∧ sw.status ≠ .Redeemed

end AtomicSwap

namespace ChainVerifier

/-- `ChainProof` in `chainVerifier.rs`. -/
structure ChainProof where
  chain_id : Nat
  block_number : Nat
  transaction_hash : List Nat
  proof_data : List Nat
  merkle_root : List Nat
  merkle_proof : List (List Nat)
  timestamp : Nat
  verifier_signature : List Nat
  deriving DecidableEq, Repr

/-- `ChainVerificationConfig` in `chainVerifier.rs`. -/
structure ChainVerificationConfig where
  chain_id : Nat
  name : String
  rpc_url : String
  block_time : Nat
  confirmation_blocks : Nat
  trust_level : Nat
  verifier_addresses : List (List Nat)
  deriving DecidableEq, Repr

/-- `VerificationResult` in `chainVerifier.rs`. -/
inductive VerificationResult
  | Valid
  | Invalid
  | Pending
  | Expired
  | InsufficientConfirmations
  | MalformedProof
  deriving DecidableEq, Repr

/-- `verify_merkle_proof` (chainVerifier.rs lines 478-493): starts from the
root, absorbs each path element with `sha(acc ++ elem)`, and demands the
final value equal the root again; an empty path is rejected. -/
def verify_merkle_proof (sha : List Nat → List Nat) (root : List Nat)
    (proof : List (List Nat)) : Bool :=
  if proof.isEmpty then false
  else
    let computed := proof.foldl (fun acc elem => sha (acc ++ elem)) root
    decide (computed = root)

/-- `verify_transaction_signature` (chainVerifier.rs lines 495-505): the
digest of the transaction hash is computed but never used; the check is
only that the signature is 65 bytes and not all zero. -/
def verify_transaction_signature (sha : List Nat → List Nat)
    (transaction_hash : List Nat) (signature : List Nat) : Bool :=
  if signature.length ≠ 65 then false
  else
    let _hash := sha transaction_hash
    decide (signature.length = 65) && ! (signature.all (fun x => x == 0))

/-- `perform_verification` (chainVerifier.rs lines 427-453).  The source
reads `Clock::get()` for the staleness check, so the current time is an
explicit argument `now`; the expiry threshold is the hard-coded
`block_time * 100`. -/
def perform_verification (sha : List Nat → List Nat) (chain_proof : ChainProof)
    (supported_chains : List (Nat × ChainVerificationConfig)) (now : Nat) :
    VerificationResult :=
  match mapLookup chain_proof.chain_id supported_chains with
  | none => .Invalid
  | some chain_config =>
    if ¬ verify_merkle_proof sha chain_proof.merkle_root chain_proof.merkle_proof
    then .MalformedProof
    else if ¬ verify_transaction_signature sha chain_proof.transaction_hash
              chain_proof.verifier_signature
    then .Invalid
    else if now > w64 (chain_proof.timestamp + w64 (chain_config.block_time * 100))
    then .Expired
    else .Valid

end ChainVerifier

namespace VerinodeContract

/-- `Proof` in `lib.rs`. -/
structure Proof where
  id : Nat
  issuer : Nat
  event_data : List Nat
  timestamp : Nat
  verified : Bool
  hash : List Nat
  deriving DecidableEq, Repr

/-- The instance storage of the Soroban contract in `lib.rs`: the `Admin`
and `ProofCount` keys plus the `Proof(id)` records. -/
structure ContractState where
  admin : Option Nat
  proof_count : Option Nat
  proofs : List (Nat × Proof)
  deriving DecidableEq, Repr

/-- Storage after `VerinodeContract::initialize(admin)` on a fresh
instance (lib.rs lines 29-36). -/
def initialContractState (admin : Nat) : ContractState :=
  { admin := some admin, proof_count := some 0, proofs := [] }

/-- `issue_proof` (lib.rs lines 39-63): reads `ProofCount` (default 0),
assigns `count + 1` as the new id (wrapping `u64`), stores the record and
the new count, and returns the id.  `require_auth` is the `auth` flag;
`none` models the host trapping the call with no state change. -/
def issue_proof (s : ContractState) (issuer : Nat) (auth : Bool)
    (event_data : List Nat) (hash : List Nat) (now : Nat) :
    Option (Nat × ContractState) :=
  if ¬ auth then none
  else
    let count := s.proof_count.getD 0
    let proof_id := w64 (count + 1)
    let p : Proof :=
      { id := proof_id
        issuer := issuer
        event_data := event_data
        timestamp := now
        verified := false
        hash := hash }
    some (proof_id,
      { s with
          proofs := mapInsert proof_id p s.proofs
          proof_count := some proof_id })

/-- The arguments of one `issue_proof` call. -/
structure IssueCall where
  issuer : Nat
  event_data : List Nat
  hash : List Nat
  now : Nat
  deriving DecidableEq, Repr

/-- The `Proof` record `issue_proof` stores for call `c` under id `i`. -/
def recordOf (i : Nat) (c : IssueCall) : Proof :=
  { id := i
    issuer := c.issuer
    event_data := c.event_data
    timestamp := c.now
    verified := false
    hash := c.hash }

/-- Run a sequence of authorized `issue_proof` calls, collecting the
returned ids. -/
def runIssues : ContractState → List IssueCall → List Nat × ContractState
  | s, [] => ([], s)
  | s, c :: cs =>
    match issue_proof s c.issuer true c.event_data c.hash c.now with
    | none => ([], s)
    | some (i, s') =>
      let r := runIssues s' cs
      (i :: r.1, r.2)

end VerinodeContract

namespace MessagePassing

/-- `MessageType` in `messagePassing.rs`. -/
inductive MessageType
  | Transfer
  | Swap
  | ContractCall
  | Data
  | Proof
  | Confirmation
  deriving DecidableEq, Repr

/-- `MessageStatus` in `messagePassing.rs`. -/
inductive MessageStatus
  | Pending
  | InTransit
  | Delivered
  | Executed
  | Failed
  | Expired
  deriving DecidableEq, Repr

/-- `RelayProof` in `messagePassing.rs`. -/
structure RelayProof where
  relayer : Nat
  relay_transaction : List Nat
  relay_block : Nat
  relay_signature : List Nat
  relay_timestamp : Nat
  deriving DecidableEq, Repr

/-- `CrossChainMessage` in `messagePassing.rs`. -/
structure CrossChainMessage where
  message_id : String
  source_chain : Nat
  target_chain : Nat
  sender : List Nat
  recipient : List Nat
  message_type : MessageType
  payload : List Nat
  nonce : Nat
  timestamp : Nat
  gas_limit : Nat
  gas_price : Nat
  status : MessageStatus
  signature : List Nat
  relay_proof : Option RelayProof
  deriving DecidableEq, Repr

/-- `ChainMessageConfig` in `messagePassing.rs`. -/
structure ChainMessageConfig where
  chain_id : Nat
  name : String
  message_router : List Nat
  gas_price_oracle : List Nat
  block_time : Nat
  confirmation_blocks : Nat
  max_message_size : Nat
  supported_message_types : List MessageType
  deriving DecidableEq, Repr

/-- `ExecutionResult` in `messagePassing.rs`. -/
structure ExecutionResult where
  success : Bool
  return_data : List Nat
  error_message : Option String
  gas_used : Nat
  deriving DecidableEq, Repr

/-- `DeliveredMessage` in `messagePassing.rs`. -/
structure DeliveredMessage where
  message_id : String
  original_message : CrossChainMessage
  delivered_at : Nat
  execution_result : ExecutionResult
  gas_used : Nat
  relayer : Nat
  deriving DecidableEq, Repr

/-- `RelayerInfo` in `messagePassing.rs`; the floating-point
`success_rate: f64` field is never read by any modelled control flow and
is not modelled. -/
structure RelayerInfo where
  address : Nat
  stake_amount : Nat
  reputation : Nat
  total_messages : Nat
  is_active : Bool
  supported_chains : List Nat
  deriving DecidableEq, Repr

/-- `ChainMessageStats` in `messagePassing.rs`. -/
structure ChainMessageStats where
  chain_id : Nat
  messages_sent : Nat
  messages_received : Nat
  average_gas_used : Nat
  deriving DecidableEq, Repr

/-- `MessageStats` in `messagePassing.rs`. -/
structure MessageStats where
  total_messages : Nat
  delivered_messages : Nat
  failed_messages : Nat
  average_delivery_time : Nat
  total_gas_used : Nat
  chain_stats : List (Nat × ChainMessageStats)
  deriving DecidableEq, Repr

/-- `MessagePassingState` in `messagePassing.rs`. -/
structure MessagePassingState where
  is_initialized : Bool
  authority : Nat
  supported_chains : List (Nat × ChainMessageConfig)
  pending_messages : List (String × CrossChainMessage)
  delivered_messages : List (String × DeliveredMessage)
  message_stats : MessageStats
  fee_rate : Nat
  relayers : List (Nat × RelayerInfo)
  deriving DecidableEq, Repr

/-- `AddChainMessageConfigArgs` in `messagePassing.rs`. -/
structure AddChainMessageConfigArgs where
  chain_id : Nat
  name : String
  message_router : List Nat
  gas_price_oracle : List Nat
  block_time : Nat
  confirmation_blocks : Nat
  max_message_size : Nat
  supported_message_types : List MessageType
  deriving DecidableEq, Repr

/-- `SendMessageArgs` in `messagePassing.rs`. -/
structure SendMessageArgs where
  message_id : String
  source_chain : Nat
  target_chain : Nat
  recipient : List Nat
  message_type : MessageType
  payload : List Nat
  gas_limit : Nat
  gas_price : Nat
  deriving DecidableEq, Repr

/-- `RelayMessageArgs` in `messagePassing.rs`. -/
structure RelayMessageArgs where
  message_id : String
  relay_transaction : List Nat
  relay_block : Nat
  relay_signature : List Nat
  deriving DecidableEq, Repr

/-- `ExecuteMessageArgs` in `messagePassing.rs`. -/
structure ExecuteMessageArgs where
  message_id : String
  execution_data : List Nat
  deriving DecidableEq, Repr

/-- `RegisterRelayerArgs` in `messagePassing.rs`. -/
structure RegisterRelayerArgs where
  stake_amount : Nat
  supported_chains : List Nat
  deriving DecidableEq, Repr

/-- State after `initialize_message_passing` on a fresh account
(messagePassing.rs lines 220-265). -/
def initialMessagePassingState (authority fee_rate : Nat) : MessagePassingState :=
  { is_initialized := true
    authority := authority
    supported_chains := []
    pending_messages := []
    delivered_messages := []
    message_stats :=
      { total_messages := 0
        delivered_messages := 0
        failed_messages := 0
        average_delivery_time := 0
        total_gas_used := 0
        chain_stats := [] }
    fee_rate := fee_rate
    relayers := [] }

/-- Big-endian byte list of width `w` of a natural number, modelling
`to_be_bytes` / `Pubkey::to_bytes`. -/
def beBytes : Nat → Nat → List Nat
  | 0, _ => []
  | w + 1, n => beBytes w (n / 256) ++ [n % 256]

/-- Byte encoding of a string (`str::as_bytes`), modelled by character
code points (identical for ASCII ids). -/
def stringBytes (s : String) : List Nat := s.data.map Char.toNat

/-- The `u8` cast of a `MessageType` (`message_type as u8`). -/
def messageTypeCode : MessageType → Nat
  | .Transfer => 0
  | .Swap => 1
  | .ContractCall => 2
  | .Data => 3
  | .Proof => 4
  | .Confirmation => 5

/-- `generate_nonce` (messagePassing.rs lines 577-586): SHA-256 of the
message id bytes and the big-endian timestamp, with the first 8 digest
bytes read back as a big-endian `u64`. -/
def generate_nonce (sha : List Nat → List Nat) (message_id : String)
    (timestamp : Nat) : Nat :=
  let hash := sha (stringBytes message_id ++ beBytes 8 timestamp)
  (hash.take 8).foldl (fun acc b => acc * 256 + b % 256) 0

/-- `sign_message` (messagePassing.rs lines 588-601). -/
def sign_message (sha : List Nat → List Nat) (args : SendMessageArgs)
    (sender : Nat) (nonce : Nat) : List Nat :=
  sha (stringBytes args.message_id ++ beBytes 8 args.source_chain ++
       beBytes 8 args.target_chain ++ args.recipient ++
       [messageTypeCode args.message_type] ++ args.payload ++
       beBytes 8 nonce ++ beBytes 32 sender)

/-- `send_message` (messagePassing.rs lines 313-373). -/
def send_message (sha : List Nat → List Nat) (s : MessagePassingState)
    (sender_key : Nat) (signer : Bool) (now : Nat) (args : SendMessageArgs) :
    Except ProgramError MessagePassingState :=
  if ¬ signer then .error .MissingRequiredSignature
  else if ¬ (mapContains args.source_chain s.supported_chains = true ∧
             mapContains args.target_chain s.supported_chains = true) then
    .error .InvalidArgument
  else
    match mapLookup args.source_chain s.supported_chains with
    | none => .error .InvalidArgument
    | some source_config =>
      if ¬ source_config.supported_message_types.contains args.message_type then
        .error .InvalidArgument
      else
        let nonce := generate_nonce sha args.message_id now
        let signature := sign_message sha args sender_key nonce
        let message : CrossChainMessage :=
          { message_id := args.message_id
            source_chain := args.source_chain
            target_chain := args.target_chain
            sender := beBytes 32 sender_key
            recipient := args.recipient
            message_type := args.message_type
            payload := args.payload
            nonce := nonce
            timestamp := now
            gas_limit := args.gas_limit
            gas_price := args.gas_price
            status := .Pending
            signature := signature
            relay_proof := none }
        let stats1 := { s.message_stats with
          total_messages := w64 (s.message_stats.total_messages + 1) }
        let stats2 :=
          match mapLookup args.source_chain stats1.chain_stats with
          | none => stats1
          | some cs =>
            { stats1 with
                chain_stats :=
                  mapInsert args.source_chain
                    { cs with messages_sent := w64 (cs.messages_sent + 1) }
                    stats1.chain_stats }
        .ok { s with
                pending_messages :=
                  mapInsert args.message_id message s.pending_messages
                message_stats := stats2 }

/-- `relay_message` (messagePassing.rs lines 375-417). -/
def relay_message (s : MessagePassingState) (relayer_key : Nat) (signer : Bool)
    (now : Nat) (args : RelayMessageArgs) :
    Except ProgramError MessagePassingState :=
  if ¬ signer then .error .MissingRequiredSignature
  else
    match mapLookup relayer_key s.relayers with
    | none => .error .InvalidAccountData
    | some relayer_info =>
      if ¬ relayer_info.is_active then .error .InvalidAccountData
      else
        match mapLookup args.message_id s.pending_messages with
        | none => .error .InvalidArgument
        | some m =>
          let rp : RelayProof :=
            { relayer := relayer_key
              relay_transaction := args.relay_transaction
              relay_block := args.relay_block
              relay_signature := args.relay_signature
              relay_timestamp := now }
          .ok { s with
                  pending_messages :=
                    mapInsert args.message_id
                      { m with relay_proof := some rp, status := .InTransit }
                      s.pending_messages }

/-- `execute_cross_chain_message` (messagePassing.rs lines 603-641). -/
def execute_cross_chain_message (m : CrossChainMessage)
    (execution_data : List Nat) : ExecutionResult :=
  let gas_used := m.gas_limit / 2
  match m.message_type with
  | .Transfer =>
    { success := true
      return_data := execution_data
      error_message := none
      gas_used := gas_used }
  | .ContractCall =>
    { success := true
      return_data := [1, 2, 3, 4]
      error_message := none
      gas_used := w64 (m.gas_limit * 3) / 4 }
  | .Data =>
    { success := true
      return_data := m.payload
      error_message := none
      gas_used := 21000 }
  | _ =>
    { success := false
      return_data := []
      error_message := some "Unsupported message type"
      gas_used := gas_used }

/-- `execute_message` (messagePassing.rs lines 419-476).  The result
`none` models the panic of `message.relay_proof.as_ref().unwrap()` at
line 450; every other path is `some` of the handler's result.  Note the
chain statistics increment `messages_received` before using it as the
sample count in the rolling gas average. -/
def execute_message (s : MessagePassingState) (_executor : Nat) (signer : Bool)
    (now : Nat) (args : ExecuteMessageArgs) :
    Option (Except ProgramError MessagePassingState) :=
  if ¬ signer then some (.error .MissingRequiredSignature)
  else
    match mapLookup args.message_id s.pending_messages with
    | none => some (.error .InvalidArgument)
    | some m =>
      if m.status ≠ .InTransit then some (.error .InvalidAccountData)
      else
        let execution_result := execute_cross_chain_message m args.execution_data
        match m.relay_proof with
        | none => none
        | some rp =>
          let delivered : DeliveredMessage :=
            { message_id := args.message_id
              original_message := m
              delivered_at := now
              execution_result := execution_result
              gas_used := execution_result.gas_used
              relayer := rp.relayer }
          let stats1 := { s.message_stats with
            delivered_messages :=
              if execution_result.success then
                w64 (s.message_stats.delivered_messages + 1)
              else s.message_stats.delivered_messages
            failed_messages :=
              if execution_result.success then s.message_stats.failed_messages
              else w64 (s.message_stats.failed_messages + 1)
            total_gas_used :=
              w64 (s.message_stats.total_gas_used + execution_result.gas_used) }
          let stats2 :=
            match mapLookup m.target_chain stats1.chain_stats with
            | none => stats1
            | some cs =>
              let recv := w64 (cs.messages_received + 1)
              { stats1 with
                  chain_stats :=
                    mapInsert m.target_chain
                      { cs with
                          messages_received := recv
                          average_gas_used :=
                            w64 (w64 (cs.average_gas_used * recv) +
                                  execution_result.gas_used) / w64 (recv + 1) }
                      stats1.chain_stats }
          some (.ok { s with
                        delivered_messages :=
                          mapInsert args.message_id delivered
                            s.delivered_messages
                        pending_messages :=
                          mapRemove args.message_id s.pending_messages
                        message_stats := stats2 })

/-- `register_relayer` (messagePassing.rs lines 478-514). -/
def register_relayer (s : MessagePassingState) (relayer_key : Nat)
    (signer : Bool) (args : RegisterRelayerArgs) :
    Except ProgramError MessagePassingState :=
  if ¬ signer then .error .MissingRequiredSignature
  else if mapContains relayer_key s.relayers then
    .error .AccountAlreadyInitialized
  else
    .ok { s with
            relayers :=
              mapInsert relayer_key
                { address := relayer_key
                  stake_amount := args.stake_amount
                  reputation := 100
                  total_messages := 0
                  is_active := true
                  supported_chains := args.supported_chains }
                s.relayers }

/-- `update_relayer_status` (messagePassing.rs lines 516-547). -/
def update_relayer_status (s : MessagePassingState) (caller : Nat)
    (signer : Bool) (relayer_address : Nat) (is_active : Bool) :
    Except ProgramError MessagePassingState :=
  if ¬ signer then .error .MissingRequiredSignature
  else if s.authority ≠ caller then .error .InvalidAccountData
  else
    match mapLookup relayer_address s.relayers with
    | none => .error .InvalidArgument
    | some relayer_info =>
      .ok { s with
              relayers :=
                mapInsert relayer_address
                  { relayer_info with is_active := is_active } s.relayers }

/-- `add_chain_message_config` (messagePassing.rs lines 267-311). -/
def add_chain_message_config (s : MessagePassingState) (caller : Nat)
    (signer : Bool) (args : AddChainMessageConfigArgs) :
    Except ProgramError MessagePassingState :=
  if ¬ signer then .error .MissingRequiredSignature
  else if s.authority ≠ caller then .error .InvalidAccountData
  else
    let cfg : ChainMessageConfig :=
      { chain_id := args.chain_id
        name := args.name
        message_router := args.message_router
        gas_price_oracle := args.gas_price_oracle
        block_time := args.block_time
        confirmation_blocks := args.confirmation_blocks
        max_message_size := args.max_message_size
        supported_message_types := args.supported_message_types }
    .ok { s with
            supported_chains := mapInsert args.chain_id cfg s.supported_chains
            message_stats := { s.message_stats with
              chain_stats :=
                mapInsert args.chain_id
                  { chain_id := args.chain_id
                    messages_sent := 0
                    messages_received := 0
                    average_gas_used := 0 }
                  s.message_stats.chain_stats } }

/-- `update_fee_rate` (messagePassing.rs lines 549-575). -/
def update_fee_rate (s : MessagePassingState) (caller : Nat) (signer : Bool)
    (new_rate : Nat) : Except ProgramError MessagePassingState :=
  if ¬ signer then .error .MissingRequiredSignature
  else if s.authority ≠ caller then .error .InvalidAccountData
  else .ok { s with fee_rate := new_rate }

/-- One message-passing instruction, with its caller, signer flag, clock
reading and arguments (`MessagePassingInstruction` dispatch, minus the
one-shot initialization). -/
inductive Op
  | addConfig (caller : Nat) (signer : Bool) (args : AddChainMessageConfigArgs)
  | send (sha : List Nat → List Nat) (caller : Nat) (signer : Bool) (now : Nat)
      (args : SendMessageArgs)
  | relay (caller : Nat) (signer : Bool) (now : Nat) (args : RelayMessageArgs)
  | execute (caller : Nat) (signer : Bool) (now : Nat)
      (args : ExecuteMessageArgs)
  | register (caller : Nat) (signer : Bool) (args : RegisterRelayerArgs)
  | setRelayerStatus (caller : Nat) (signer : Bool) (addr : Nat) (flag : Bool)
  | setFeeRate (caller : Nat) (signer : Bool) (rate : Nat)

/-- Commit semantics of one transaction: an `Err` (or a panic) aborts the
transaction, leaving the stored account data unchanged. -/
def commit (s : MessagePassingState)
    (r : Except ProgramError MessagePassingState) : MessagePassingState :=
  match r with
  | .ok s' => s'
  | .error _ => s

/-- Apply one instruction to the stored state. -/
def applyOp (s : MessagePassingState) : Op → MessagePassingState
  | .addConfig c g a => commit s (add_chain_message_config s c g a)
  | .send sha c g n a => commit s (send_message sha s c g n a)
  | .relay c g n a => commit s (relay_message s c g n a)
  | .execute c g n a =>
    match execute_message s c g n a with
    | none => s
    | some r => commit s r
  | .register c g a => commit s (register_relayer s c g a)
  | .setRelayerStatus c g addr flag =>
    commit s (update_relayer_status s c g addr flag)
  | .setFeeRate c g r => commit s (update_fee_rate s c g r)

/-- States reachable from a freshly initialized message-passing account
through any sequence of instructions. -/
inductive Reachable (authority fee : Nat) : MessagePassingState → Prop
  | init : Reachable authority fee (initialMessagePassingState authority fee)
  | step (s : MessagePassingState) (op : Op) :
      Reachable authority fee s → Reachable authority fee (applyOp s op)

/-- The invariant behind claim C10: every pending message whose status is
`InTransit` carries a relay proof. -/
def RelayInv (s : MessagePassingState) : Prop :=
  ∀ id m, mapLookup id s.pending_messages = some m →
    m.status = .InTransit → m.relay_proof.isSome = true

end MessagePassing

/-!
Concrete scenario fixtures used by witnesses and counterexamples.  The
SHA-256 stand-in `hconst` is a legitimate instance of the hash parameter;
every universally quantified theorem below holds for the real SHA-256 as
well.
-/

/-- A concrete instance of the hash parameter: the constant digest `[1]`. -/
def hconst : List Nat → List Nat := fun _ => [1]

/-- Scenario swap-initiation arguments: commitment `[1]`, timelock 3600. -/
def swapArgs0 : AtomicSwap.InitSwapArgs :=
  { swap_id := "s1"
    initiator_chain := 1
    participant_chain := 2
    initiator_asset := { token_address := [], amount := 100, decimals := 8 }
    participant_asset := { token_address := [], amount := 200, decimals := 8 }
    secret_hash := [1]
    timelock := 3600 }

/-- Swap account state after `initiate_swap` by key 1 at time 0. -/
def sA1 : AtomicSwap.SwapState :=
  AtomicSwap.applyOp (AtomicSwap.initialSwapState 9)
    (.initiate 1 true 0 swapArgs0)

/-- Swap account state after key 2 joined via `participate_swap`. -/
def sA2 : AtomicSwap.SwapState :=
  AtomicSwap.applyOp sA1 (.participate 5 true ⟨"s1", 2⟩)

/-- The swap record stored under "s1" in `sA2`. -/
def swA2 : AtomicSwap.Swap :=
  { swap_id := "s1"
    initiator := 1
    participant := some 2
    initiator_chain := 1
    participant_chain := 2
    initiator_asset := { token_address := [], amount := 100, decimals := 8 }
    participant_asset := { token_address := [], amount := 200, decimals := 8 }
    initiator_deposit := none
    participant_deposit := none
    status := .Deposited
    secret_hash := [1]
    secret := none
    timelock := 3600
    created_at := 0
    expires_at := 3600
    refund_initiator := false
    refund_participant := false }

/-- Scenario chain configuration with `block_time` 1. -/
def cfg1 : ChainVerifier.ChainVerificationConfig :=
  { chain_id := 1
    name := "c"
    rpc_url := "u"
    block_time := 1
    confirmation_blocks := 6
    trust_level := 5
    verifier_addresses := [] }

/-- Scenario chain configuration with `block_time` 10 and
`confirmation_blocks` 6. -/
def cfg2 : ChainVerifier.ChainVerificationConfig :=
  { cfg1 with block_time := 10 }

/-- A proof whose merkle path re-derives the root under `hconst` and whose
signature is 65 nonzero bytes. -/
def proofGood : ChainVerifier.ChainProof :=
  { chain_id := 1
    block_number := 1
    transaction_hash := []
    proof_data := []
    merkle_root := [1]
    merkle_proof := [[2]]
    timestamp := 0
    verifier_signature := List.replicate 65 1 }

/-- `proofGood` with an empty (hence failing) merkle path. -/
def proofNoPath : ChainVerifier.ChainProof := { proofGood with merkle_proof := [] }

/-- `proofGood` with an empty signature. -/
def proofShortSig : ChainVerifier.ChainProof :=
  { proofGood with verifier_signature := [] }

/-- Scenario message-chain configuration supporting `Transfer`. -/
def mpCfgArgs : MessagePassing.AddChainMessageConfigArgs :=
  { chain_id := 1
    name := "c"
    message_router := []
    gas_price_oracle := []
    block_time := 1
    confirmation_blocks := 1
    max_message_size := 1000
    supported_message_types := [.Transfer] }

/-- Scenario send arguments: a `Transfer` from chain 1 to chain 1 with
gas limit 40. -/
def mpSendArgs : MessagePassing.SendMessageArgs :=
  { message_id := "m1"
    source_chain := 1
    target_chain := 1
    recipient := []
    message_type := .Transfer
    payload := []
    gas_limit := 40
    gas_price := 1 }

/-- Message state: initialized (authority 9), chain 1 configured. -/
def mp1 : MessagePassing.MessagePassingState :=
  MessagePassing.applyOp (MessagePassing.initialMessagePassingState 9 0)
    (.addConfig 9 true mpCfgArgs)

/-- `mp1` with relayer 4 registered. -/
def mp2 : MessagePassing.MessagePassingState :=
  MessagePassing.applyOp mp1 (.register 4 true ⟨50, [1]⟩)

/-- `mp2` after key 3 sent message "m1". -/
def mp3 : MessagePassing.MessagePassingState :=
  MessagePassing.applyOp mp2 (.send hconst 3 true 0 mpSendArgs)

/-- `mp3` after relayer 4 relayed "m1" (status `InTransit`). -/
def mp4 : MessagePassing.MessagePassingState :=
  MessagePassing.applyOp mp3 (.relay 4 true 5 ⟨"m1", [], 7, []⟩)

/-- `mp4` after executor 2 executed "m1" at time 10. -/
def mp5 : MessagePassing.MessagePassingState :=
  MessagePassing.applyOp mp4 (.execute 2 true 10 ⟨"m1", [7]⟩)

/-- The swap record stored under "s1" in `sA1` (before participation). -/
def swA1 : AtomicSwap.Swap :=
  { swA2 with participant := none, status := .Initiated }

/-- Swap account state after key 2 redeemed "s1" at time 10 with a secret
hashing (under `hconst`) to the commitment. -/
def sA3 : AtomicSwap.SwapState :=
  AtomicSwap.applyOp sA2 (.redeemOp hconst 2 true 10 ⟨"s1", [9]⟩)

/-- Scenario deposit arguments for swap "s1". -/
def dargs0 : AtomicSwap.DepositArgs :=
  { swap_id := "s1", transaction_hash := [3], block_number := 7, proof := [4] }

/-- The message stored under "m1" in `mp4` (after relay): under `hconst`
every digest is `[1]`, so the nonce is 1 and the signature is `[1]`. -/
def msgM1 : MessagePassing.CrossChainMessage :=
  { message_id := "m1"
    source_chain := 1
    target_chain := 1
    sender := MessagePassing.beBytes 32 3
    recipient := []
    message_type := .Transfer
    payload := []
    nonce := 1
    timestamp := 0
    gas_limit := 40
    gas_price := 1
    status := .InTransit
    signature := [1]
    relay_proof := some ⟨4, [], 7, [], 5⟩ }

/-- The chain-1 message statistics in `mp4`: one message sent, none
received yet. -/
def csM1 : MessagePassing.ChainMessageStats :=
  { chain_id := 1, messages_sent := 1, messages_received := 0
    average_gas_used := 0 }

/-!  Theorems.  -/

theorem mapLookup_mapRemove {κ α : Type} [DecidableEq κ] (k j : κ)
    (m : List (κ × α)) :
    mapLookup j (mapRemove k m) = if k = j then none else mapLookup j m := by
  induction m with
  | nil => simp [mapRemove, mapLookup]
  | cons p r ih =>
    obtain ⟨k', v⟩ := p
    simp only [mapRemove]
    by_cases hk : k' = k
    · rw [if_pos hk, ih]
      by_cases hj : k = j
      · simp [hj]
      · have hkj : ¬ k' = j := by rw [hk]; exact hj
        simp [mapLookup, hj, hkj]
    · rw [if_neg hk]
      by_cases hj : k' = j
      · have hknj : ¬ k = j := by
          intro h
          exact hk (by rw [hj, h])
        simp [mapLookup, hj, hknj]
      · simp [mapLookup, hj, ih]

theorem mapLookup_mapInsert {κ α : Type} [DecidableEq κ] (k j : κ) (v : α)
    (m : List (κ × α)) :
    mapLookup j (mapInsert k v m) = if k = j then some v else mapLookup j m := by
  by_cases h : k = j
  · subst h; simp [mapInsert, mapLookup]
  · simp [mapInsert, mapLookup, h, mapLookup_mapRemove]

namespace AtomicSwap

theorem redeem_isOk_iff (sha : List Nat → List Nat) (s : SwapState)
    (caller : Nat) (signer : Bool) (now : Nat) (args : RedeemArgs) :
    (redeem sha s caller signer now args).isOk = true ↔
      (signer = true ∧ ∃ sw, mapLookup args.swap_id s.active_swaps = some sw ∧
        sw.status = .Deposited ∧ sha args.secret = sw.secret_hash) := by
  cases signer with
  | false => simp [redeem, Except.isOk, Except.toBool]
  | true =>
    cases hm : mapLookup args.swap_id s.active_swaps with
    | none => simp [redeem, hm, Except.isOk, Except.toBool]
    | some sw =>
      by_cases hst : sw.status = SwapStatus.Deposited
      · by_cases hsec : sha args.secret = sw.secret_hash
        · simp [redeem, hm, hst, hsec, Except.isOk, Except.toBool]
        · simp [redeem, hm, hst, hsec, Except.isOk, Except.toBool]
      · simp [redeem, hm, hst, Except.isOk, Except.toBool]

theorem redeem_ok_eq (sha : List Nat → List Nat) (s : SwapState)
    (caller : Nat) (signer : Bool) (now : Nat) (args : RedeemArgs)
    (s' : SwapState) (h : redeem sha s caller signer now args = .ok s') :
    ∃ sw, mapLookup args.swap_id s.active_swaps = some sw ∧
      sw.status = .Deposited ∧ sha args.secret = sw.secret_hash ∧
      s' = { s with
        active_swaps := mapRemove args.swap_id s.active_swaps
        completed_swaps := s.completed_swaps ++ [args.swap_id]
        swap_stats :=
          update_swap_stats
            { s.swap_stats with
                completed_swaps := w64 (s.swap_stats.completed_swaps + 1) }
            (w64sub now sw.created_at) } := by
  cases signer with
  | false => simp [redeem] at h
  | true =>
    cases hm : mapLookup args.swap_id s.active_swaps with
    | none => simp [redeem, hm] at h
    | some sw =>
      by_cases hst : sw.status = SwapStatus.Deposited
      · by_cases hsec : sha args.secret = sw.secret_hash
        · refine ⟨sw, rfl, hst, hsec, ?_⟩
          simp [redeem, hm, hst, hsec] at h
          exact h.symm
        · simp [redeem, hm, hst, hsec] at h
      · simp [redeem, hm, hst] at h

theorem participate_isOk_iff (s : SwapState) (caller : Nat) (signer : Bool)
    (args : ParticipateSwapArgs) :
    (participate_swap s caller signer args).isOk = true ↔
      (signer = true ∧ ∃ sw, mapLookup args.swap_id s.active_swaps = some sw ∧
        sw.participant = none ∧ sw.status = .Initiated) := by
  cases signer with
  | false => simp [participate_swap, Except.isOk, Except.toBool]
  | true =>
    cases hm : mapLookup args.swap_id s.active_swaps with
    | none => simp [participate_swap, hm, Except.isOk, Except.toBool]
    | some sw =>
      cases hp : sw.participant with
      | some p =>
        simp [participate_swap, hm, hp, Except.isOk, Except.toBool]
      | none =>
        by_cases hst : sw.status = SwapStatus.Initiated
        · simp [participate_swap, hm, hp, hst, Except.isOk, Except.toBool]
        · simp [participate_swap, hm, hp, hst, Except.isOk, Except.toBool]

theorem participate_ok_eq (s : SwapState) (caller : Nat) (signer : Bool)
    (args : ParticipateSwapArgs) (s' : SwapState)
    (h : participate_swap s caller signer args = .ok s') :
    ∃ sw, mapLookup args.swap_id s.active_swaps = some sw ∧
      sw.participant = none ∧ sw.status = .Initiated ∧
      s' = { s with
        active_swaps :=
          mapInsert args.swap_id
            { sw with participant := some args.participant
                      status := .Deposited }
            s.active_swaps } := by
  cases signer with
  | false => simp [participate_swap] at h
  | true =>
    cases hm : mapLookup args.swap_id s.active_swaps with
    | none => simp [participate_swap, hm] at h
    | some sw =>
      cases hp : sw.participant with
      | some p => simp [participate_swap, hm, hp] at h
      | none =>
        by_cases hst : sw.status = SwapStatus.Initiated
        · refine ⟨sw, rfl, hp, hst, ?_⟩
          simp [participate_swap, hm, hp, hst] at h
          exact h.symm
        · simp [participate_swap, hm, hp, hst] at h

theorem deposit_isOk_iff (s : SwapState) (caller : Nat) (signer : Bool)
    (now : Nat) (args : DepositArgs) :
    (deposit s caller signer now args).isOk = true ↔
      (signer = true ∧ ∃ sw, mapLookup args.swap_id s.active_swaps = some sw ∧
        ((sw.initiator = caller ∧ sw.initiator_deposit = none) ∨
         (sw.initiator ≠ caller ∧ sw.participant = some caller ∧
           sw.participant_deposit = none))) := by
  cases signer with
  | false => simp [deposit, Except.isOk, Except.toBool]
  | true =>
    cases hm : mapLookup args.swap_id s.active_swaps with
    | none => simp [deposit, hm, Except.isOk, Except.toBool]
    | some sw =>
      by_cases hi : sw.initiator = caller
      · cases hd : sw.initiator_deposit with
        | some d => simp [deposit, hm, hi, hd, Except.isOk, Except.toBool]
        | none => simp [deposit, hm, hi, hd, Except.isOk, Except.toBool]
      · by_cases hp : sw.participant = some caller
        · cases hpd : sw.participant_deposit with
          | some d => simp [deposit, hm, hi, hp, hpd, Except.isOk, Except.toBool]
          | none => simp [deposit, hm, hi, hp, hpd, Except.isOk, Except.toBool]
        · simp [deposit, hm, hi, hp, Except.isOk, Except.toBool]

theorem deposit_ok_eq (s : SwapState) (caller : Nat) (signer : Bool)
    (now : Nat) (args : DepositArgs) (s' : SwapState)
    (h : deposit s caller signer now args = .ok s') :
    ∃ sw, mapLookup args.swap_id s.active_swaps = some sw ∧
      (let dep : DepositInfo :=
        { transaction_hash := args.transaction_hash
          block_number := args.block_number
          confirmed_at := now
          proof := args.proof }
       (sw.initiator = caller ∧ sw.initiator_deposit = none ∧
         s' = { s with
           active_swaps :=
             mapInsert args.swap_id
               (if sw.participant_deposit.isSome then
                  { sw with initiator_deposit := some dep
                            status := .Deposited }
                else { sw with initiator_deposit := some dep })
               s.active_swaps }) ∨
       (sw.initiator ≠ caller ∧ sw.participant = some caller ∧
         sw.participant_deposit = none ∧
         s' = { s with
           active_swaps :=
             mapInsert args.swap_id
               (if sw.initiator_deposit.isSome then
                  { sw with participant_deposit := some dep
                            status := .Deposited }
                else { sw with participant_deposit := some dep })
               s.active_swaps })) := by
  cases signer with
  | false => simp [deposit] at h
  | true =>
    cases hm : mapLookup args.swap_id s.active_swaps with
    | none => simp [deposit, hm] at h
    | some sw =>
      refine ⟨sw, rfl, ?_⟩
      by_cases hi : sw.initiator = caller
      · cases hd : sw.initiator_deposit with
        | some d => simp [deposit, hm, hi, hd] at h
        | none =>
          left
          refine ⟨hi, rfl, ?_⟩
          cases hpd : sw.participant_deposit with
          | some d =>
            simp [deposit, hm, hi, hd, hpd] at h
            rw [← h]
            simp [hpd, hi]
          | none =>
            simp [deposit, hm, hi, hd, hpd] at h
            rw [← h]
            simp [hpd, hi]
      · by_cases hp : sw.participant = some caller
        · cases hpd : sw.participant_deposit with
          | some d => simp [deposit, hm, hi, hp, hpd] at h
          | none =>
            right
            refine ⟨hi, hp, rfl, ?_⟩
            cases hd : sw.initiator_deposit with
            | some d =>
              simp [deposit, hm, hi, hp, hpd, hd] at h
              rw [← h]
              simp [hd, hp]
            | none =>
              simp [deposit, hm, hi, hp, hpd, hd] at h
              rw [← h]
              simp [hd, hp]
        · simp [deposit, hm, hi, hp] at h

theorem initiate_ok_active (s : SwapState) (caller : Nat) (signer : Bool)
    (now : Nat) (args : InitSwapArgs) (s' : SwapState)
    (h : initiate_swap s caller signer now args = .ok s') :
    ∃ sw₀ : Swap, s'.active_swaps = mapInsert args.swap_id sw₀ s.active_swaps ∧
      sw₀.secret = none ∧ sw₀.status = .Initiated := by
  cases signer with
  | false => simp [initiate_swap] at h
  | true =>
    by_cases hc : mapContains args.swap_id s.active_swaps
    · simp [initiate_swap, hc] at h
    · by_cases ht : args.timelock < s.min_timelock ∨ args.timelock > s.max_timelock
      · simp [initiate_swap, hc, ht] at h
      · simp [initiate_swap, hc, ht] at h
        exact ⟨_, by rw [← h], rfl, rfl⟩

theorem refund_isOk_iff (s : SwapState) (caller : Nat) (signer : Bool)
    (now : Nat) (args : RefundArgs) :
    (refund s caller signer now args).isOk = true ↔
      (signer = true ∧ ∃ sw, mapLookup args.swap_id s.active_swaps = some sw ∧
        sw.expires_at ≤ now ∧
        (if args.is_initiator then sw.initiator = caller
         else sw.participant = some caller)) := by
  cases signer with
  | false => simp [refund, Except.isOk, Except.toBool]
  | true =>
    cases hm : mapLookup args.swap_id s.active_swaps with
    | none => simp [refund, hm, Except.isOk, Except.toBool]
    | some sw =>
      by_cases ht : now < sw.expires_at
      · simp [refund, hm, ht, Except.isOk, Except.toBool]
      · have ht' : sw.expires_at ≤ now := Nat.le_of_not_lt ht
        cases hb : args.is_initiator with
        | true =>
          by_cases hi : sw.initiator = caller
          · by_cases hf : sw.refund_participant
            · simp [refund, hm, ht, hb, hi, hf, ht', Except.isOk, Except.toBool]
            · simp [refund, hm, ht, hb, hi, hf, ht', Except.isOk, Except.toBool]
          · simp [refund, hm, ht, hb, hi, ht', Except.isOk, Except.toBool]
        | false =>
          by_cases hp : sw.participant = some caller
          · by_cases hf : sw.refund_initiator
            · simp [refund, hm, ht, hb, hp, hf, ht', Except.isOk, Except.toBool]
            · simp [refund, hm, ht, hb, hp, hf, ht', Except.isOk, Except.toBool]
          · simp [refund, hm, ht, hb, hp, ht', Except.isOk, Except.toBool]

theorem refund_before_expiry (s : SwapState) (caller : Nat) (now : Nat)
    (args : RefundArgs) (sw : Swap)
    (hm : mapLookup args.swap_id s.active_swaps = some sw)
    (ht : now < sw.expires_at) :
    refund s caller true now args = .error .InvalidArgument := by
  simp [refund, hm, ht]

theorem refund_ok_eq (s : SwapState) (caller : Nat) (signer : Bool)
    (now : Nat) (args : RefundArgs) (s' : SwapState)
    (h : refund s caller signer now args = .ok s') :
    ∃ sw, mapLookup args.swap_id s.active_swaps = some sw ∧
      sw.expires_at ≤ now ∧
      (let finalState : SwapState :=
        { s with
            active_swaps := mapRemove args.swap_id s.active_swaps
            completed_swaps := s.completed_swaps ++ [args.swap_id]
            swap_stats := { s.swap_stats with
              refunded_swaps := w64 (s.swap_stats.refunded_swaps + 1) } }
       (args.is_initiator = true ∧ sw.initiator = caller ∧
         (if sw.refund_participant then s' = finalState
          else s' = { s with
            active_swaps :=
              mapInsert args.swap_id { sw with refund_initiator := true }
                s.active_swaps })) ∨
       (args.is_initiator = false ∧ sw.participant = some caller ∧
         (if sw.refund_initiator then s' = finalState
          else s' = { s with
            active_swaps :=
              mapInsert args.swap_id { sw with refund_participant := true }
                s.active_swaps }))) := by
  cases signer with
  | false => simp [refund] at h
  | true =>
    cases hm : mapLookup args.swap_id s.active_swaps with
    | none => simp [refund, hm] at h
    | some sw =>
      by_cases ht : now < sw.expires_at
      · simp [refund, hm, ht] at h
      · have ht' : sw.expires_at ≤ now := Nat.le_of_not_lt ht
        refine ⟨sw, rfl, ht', ?_⟩
        cases hb : args.is_initiator with
        | true =>
          by_cases hi : sw.initiator = caller
          · left
            refine ⟨rfl, hi, ?_⟩
            by_cases hf : sw.refund_participant
            · simp [refund, hm, ht, hb, hi, hf] at h
              rw [← h]
              simp [hf, hi]
            · have hf' : sw.refund_participant = false := by
                simpa using hf
              simp [refund, hm, ht, hb, hi, hf] at h
              rw [← h]
              simp [hf', hi]
          · simp [refund, hm, ht, hb, hi] at h
        | false =>
          by_cases hp : sw.participant = some caller
          · right
            refine ⟨rfl, hp, ?_⟩
            by_cases hf : sw.refund_initiator
            · simp [refund, hm, ht, hb, hp, hf] at h
              rw [← h]
              simp [hf, hp]
            · have hf' : sw.refund_initiator = false := by
                simpa using hf
              simp [refund, hm, ht, hb, hp, hf] at h
              rw [← h]
              simp [hf', hp]
          · simp [refund, hm, ht, hb, hp] at h

theorem cancel_ok_eq (s : SwapState) (caller : Nat) (signer : Bool)
    (swap_id : String) (s' : SwapState)
    (h : cancel_swap s caller signer swap_id = .ok s') :
    s' = { s with
      active_swaps := mapRemove swap_id s.active_swaps
      completed_swaps := s.completed_swaps ++ [swap_id] } := by
  cases signer with
  | false => simp [cancel_swap] at h
  | true =>
    by_cases ha : s.authority = caller
    · cases hm : mapLookup swap_id s.active_swaps with
      | none => simp [cancel_swap, ha, hm] at h
      | some sw =>
        simp [cancel_swap, ha, hm] at h
        rw [← h]
        simp [ha]
    · simp [cancel_swap, ha] at h

theorem update_fee_rate_ok_eq (s : SwapState) (caller : Nat) (signer : Bool)
    (rate : Nat) (s' : SwapState)
    (h : update_fee_rate s caller signer rate = .ok s') :
    s' = { s with fee_rate := rate } := by
  cases signer with
  | false => simp [update_fee_rate] at h
  | true =>
    by_cases ha : s.authority = caller
    · simp [update_fee_rate, ha] at h
      rw [← h]
      simp [ha]
    · simp [update_fee_rate, ha] at h

theorem secretInv_commit (s : SwapState) (r : Except ProgramError SwapState)
    (hs : SecretInv s)
    (hok : ∀ s', r = .ok s' → SecretInv s') : SecretInv (commit s r) := by
  cases r with
  | error e => simpa [commit] using hs
  | ok s' => simpa [commit] using hok s' rfl

theorem secretInv_applyOp (s : SwapState) (op : Op) (hs : SecretInv s) :
    SecretInv (applyOp s op) := by
  cases op with
  | initiate c g n a =>
    refine secretInv_commit s _ hs ?_
    intro s' hr
    obtain ⟨sw₀, hact, hsec, hstat⟩ := initiate_ok_active s c g n a s' hr
    intro id sw hsw
    rw [hact, mapLookup_mapInsert] at hsw
    by_cases hid : a.swap_id = id
    · rw [if_pos hid] at hsw
      obtain rfl : sw₀ = sw := Option.some.inj hsw
      exact ⟨hsec, by rw [hstat]; intro hc; cases hc⟩
    · rw [if_neg hid] at hsw
      exact hs id sw hsw
  | participate c g a =>
    refine secretInv_commit s _ hs ?_
    intro s' hr
    obtain ⟨sw, hm, _, _, rfl⟩ := participate_ok_eq s c g a s' hr
    intro id sw' hsw
    rw [mapLookup_mapInsert] at hsw
    by_cases hid : a.swap_id = id
    · rw [if_pos hid] at hsw
      obtain rfl := Option.some.inj hsw
      refine ⟨(hs _ sw hm).1, ?_⟩
      intro hc
      cases hc
    · rw [if_neg hid] at hsw
      exact hs id sw' hsw
  | depositOp c g n a =>
    refine secretInv_commit s _ hs ?_
    intro s' hr
    obtain ⟨sw, hm, hcase⟩ := deposit_ok_eq s c g n a s' hr
    have hsOld := hs _ sw hm
    rcases hcase with ⟨h1, h2, rfl⟩ | ⟨h1, h2, h3, rfl⟩ <;>
      (intro id sw' hsw
       rw [mapLookup_mapInsert] at hsw
       by_cases hid : a.swap_id = id
       · rw [if_pos hid] at hsw
         split at hsw <;>
           (obtain rfl := Option.some.inj hsw
            first
            | exact ⟨hsOld.1, by intro hc; cases hc⟩
            | exact ⟨hsOld.1, hsOld.2⟩)
       · rw [if_neg hid] at hsw
         exact hs id sw' hsw)
  | redeemOp sha c g n a =>
    refine secretInv_commit s _ hs ?_
    intro s' hr
    obtain ⟨sw, hm, _, _, rfl⟩ := redeem_ok_eq sha s c g n a s' hr
    intro id sw' hsw
    rw [mapLookup_mapRemove] at hsw
    by_cases hid : a.swap_id = id
    · rw [if_pos hid] at hsw
      cases hsw
    · rw [if_neg hid] at hsw
      exact hs id sw' hsw
  | refundOp c g n a =>
    refine secretInv_commit s _ hs ?_
    intro s' hr
    obtain ⟨sw, hm, hle, hcase⟩ := refund_ok_eq s c g n a s' hr
    have hsOld := hs _ sw hm
    rcases hcase with ⟨h1, h2, hfin⟩ | ⟨h1, h2, hfin⟩ <;>
      (split at hfin <;> subst hfin
       · intro id sw' hsw
         rw [mapLookup_mapRemove] at hsw
         by_cases hid : a.swap_id = id
         · rw [if_pos hid] at hsw
           cases hsw
         · rw [if_neg hid] at hsw
           exact hs id sw' hsw
       · intro id sw' hsw
         rw [mapLookup_mapInsert] at hsw
         by_cases hid : a.swap_id = id
         · rw [if_pos hid] at hsw
           obtain rfl := Option.some.inj hsw
           exact ⟨hsOld.1, hsOld.2⟩
         · rw [if_neg hid] at hsw
           exact hs id sw' hsw)
  | cancel c g i =>
    refine secretInv_commit s _ hs ?_
    intro s' hr
    rw [cancel_ok_eq s c g i s' hr]
    intro id sw' hsw
    rw [mapLookup_mapRemove] at hsw
    by_cases hid : i = id
    · rw [if_pos hid] at hsw
      cases hsw
    · rw [if_neg hid] at hsw
      exact hs id sw' hsw
  | setFeeRate c g r =>
    refine secretInv_commit s _ hs ?_
    intro s' hr
    rw [update_fee_rate_ok_eq s c g r s' hr]
    intro id sw' hsw
    exact hs id sw' hsw

theorem secretInv_reachable (a : Nat) (s : SwapState) (h : Reachable a s) :
    SecretInv s := by
  induction h with
  | init =>
    intro id sw hsw
    simp [initialSwapState, mapLookup] at hsw
  | step s op _ ih => exact secretInv_applyOp s op ih

end AtomicSwap

namespace MessagePassing

theorem send_ok_pending (sha : List Nat → List Nat) (s : MessagePassingState)
    (c : Nat) (g : Bool) (now : Nat) (args : SendMessageArgs)
    (s' : MessagePassingState) (h : send_message sha s c g now args = .ok s') :
    ∃ msg : CrossChainMessage,
      s'.pending_messages = mapInsert args.message_id msg s.pending_messages ∧
      msg.status = .Pending := by
  cases g with
  | false => simp [send_message] at h
  | true =>
    by_cases hc : mapContains args.source_chain s.supported_chains = true ∧
        mapContains args.target_chain s.supported_chains = true
    · cases hsc : mapLookup args.source_chain s.supported_chains with
      | none => simp [send_message, hc, hsc] at h
      | some source_config =>
        by_cases hmt :
            args.message_type ∈ source_config.supported_message_types
        · simp [send_message, hc, hsc, hmt] at h
          subst h
          exact ⟨_, rfl, rfl⟩
        · simp [send_message, hc, hsc, hmt] at h
    · simp [send_message, hc] at h

theorem relay_ok_pending (s : MessagePassingState) (c : Nat) (g : Bool)
    (now : Nat) (args : RelayMessageArgs) (s' : MessagePassingState)
    (h : relay_message s c g now args = .ok s') :
    ∃ msg : CrossChainMessage,
      s'.pending_messages = mapInsert args.message_id msg s.pending_messages ∧
      msg.relay_proof.isSome = true := by
  cases g with
  | false => simp [relay_message] at h
  | true =>
    cases hr : mapLookup c s.relayers with
    | none => simp [relay_message, hr] at h
    | some relayer_info =>
      by_cases ha : relayer_info.is_active
      · cases hm : mapLookup args.message_id s.pending_messages with
        | none => simp [relay_message, hr, ha, hm] at h
        | some m =>
          simp [relay_message, hr, ha, hm] at h
          subst h
          exact ⟨_, rfl, rfl⟩
      · simp [relay_message, hr, ha] at h

theorem execute_some_ok_pending (s : MessagePassingState) (c : Nat) (g : Bool)
    (now : Nat) (args : ExecuteMessageArgs) (s' : MessagePassingState)
    (h : execute_message s c g now args = some (.ok s')) :
    s'.pending_messages = mapRemove args.message_id s.pending_messages := by
  cases g with
  | false => simp [execute_message] at h
  | true =>
    cases hm : mapLookup args.message_id s.pending_messages with
    | none => simp [execute_message, hm] at h
    | some m =>
      by_cases hst : m.status = MessageStatus.InTransit
      · cases hrp : m.relay_proof with
        | none => simp [execute_message, hm, hst, hrp] at h
        | some rp =>
          simp [execute_message, hm, hst, hrp] at h
          rw [← h]
      · simp [execute_message, hm, hst] at h

theorem register_ok_pending (s : MessagePassingState) (c : Nat) (g : Bool)
    (args : RegisterRelayerArgs) (s' : MessagePassingState)
    (h : register_relayer s c g args = .ok s') :
    s'.pending_messages = s.pending_messages := by
  cases g with
  | false => simp [register_relayer] at h
  | true =>
    by_cases hc : mapContains c s.relayers
    · simp [register_relayer, hc] at h
    · simp [register_relayer, hc] at h
      rw [← h]

theorem addConfig_ok_pending (s : MessagePassingState) (c : Nat) (g : Bool)
    (args : AddChainMessageConfigArgs) (s' : MessagePassingState)
    (h : add_chain_message_config s c g args = .ok s') :
    s'.pending_messages = s.pending_messages := by
  cases g with
  | false => simp [add_chain_message_config] at h
  | true =>
    by_cases ha : s.authority = c
    · simp [add_chain_message_config, ha] at h
      rw [← h]
    · simp [add_chain_message_config, ha] at h

theorem setRelayerStatus_ok_pending (s : MessagePassingState) (c : Nat)
    (g : Bool) (addr : Nat) (flag : Bool) (s' : MessagePassingState)
    (h : update_relayer_status s c g addr flag = .ok s') :
    s'.pending_messages = s.pending_messages := by
  cases g with
  | false => simp [update_relayer_status] at h
  | true =>
    by_cases ha : s.authority = c
    · cases hr : mapLookup addr s.relayers with
      | none => simp [update_relayer_status, ha, hr] at h
      | some ri =>
        simp [update_relayer_status, ha, hr] at h
        rw [← h]
    · simp [update_relayer_status, ha] at h

theorem setFeeRate_ok_pending (s : MessagePassingState) (c : Nat) (g : Bool)
    (rate : Nat) (s' : MessagePassingState)
    (h : update_fee_rate s c g rate = .ok s') :
    s'.pending_messages = s.pending_messages := by
  cases g with
  | false => simp [update_fee_rate] at h
  | true =>
    by_cases ha : s.authority = c
    · simp [update_fee_rate, ha] at h
      rw [← h]
    · simp [update_fee_rate, ha] at h

theorem relayInv_commit (s : MessagePassingState)
    (r : Except ProgramError MessagePassingState) (hs : RelayInv s)
    (hok : ∀ s', r = .ok s' → RelayInv s') : RelayInv (commit s r) := by
  cases r with
  | error e => simpa [commit] using hs
  | ok s' => simpa [commit] using hok s' rfl

theorem relayInv_applyOp (s : MessagePassingState) (op : Op) (hs : RelayInv s) :
    RelayInv (applyOp s op) := by
  cases op with
  | addConfig c g a =>
    refine relayInv_commit s _ hs ?_
    intro s' hr
    intro id m hm
    rw [addConfig_ok_pending s c g a s' hr] at hm
    exact hs id m hm
  | send sha c g n a =>
    refine relayInv_commit s _ hs ?_
    intro s' hr
    obtain ⟨msg, hp, hstat⟩ := send_ok_pending sha s c g n a s' hr
    intro id m hm
    rw [hp, mapLookup_mapInsert] at hm
    by_cases hid : a.message_id = id
    · rw [if_pos hid] at hm
      obtain rfl := Option.some.inj hm
      intro hit
      rw [hstat] at hit
      cases hit
    · rw [if_neg hid] at hm
      exact hs id m hm
  | relay c g n a =>
    refine relayInv_commit s _ hs ?_
    intro s' hr
    obtain ⟨msg, hp, hrp⟩ := relay_ok_pending s c g n a s' hr
    intro id m hm
    rw [hp, mapLookup_mapInsert] at hm
    by_cases hid : a.message_id = id
    · rw [if_pos hid] at hm
      obtain rfl := Option.some.inj hm
      intro _
      exact hrp
    · rw [if_neg hid] at hm
      exact hs id m hm
  | execute c g n a =>
    cases he : execute_message s c g n a with
    | none => simpa [applyOp, he] using hs
    | some r =>
      cases r with
      | error e => simpa [applyOp, he, commit] using hs
      | ok s' =>
        simp only [applyOp, he, commit]
        intro id m hm
        rw [execute_some_ok_pending s c g n a s' he, mapLookup_mapRemove] at hm
        by_cases hid : a.message_id = id
        · rw [if_pos hid] at hm
          cases hm
        · rw [if_neg hid] at hm
          exact hs id m hm
  | register c g a =>
    refine relayInv_commit s _ hs ?_
    intro s' hr
    intro id m hm
    rw [register_ok_pending s c g a s' hr] at hm
    exact hs id m hm
  | setRelayerStatus c g addr flag =>
    refine relayInv_commit s _ hs ?_
    intro s' hr
    intro id m hm
    rw [setRelayerStatus_ok_pending s c g addr flag s' hr] at hm
    exact hs id m hm
  | setFeeRate c g r =>
    refine relayInv_commit s _ hs ?_
    intro s' hr
    intro id m hm
    rw [setFeeRate_ok_pending s c g r s' hr] at hm
    exact hs id m hm

theorem relayInv_reachable (a f : Nat) (s : MessagePassingState)
    (h : Reachable a f s) : RelayInv s := by
  induction h with
  | init =>
    intro id m hm
    simp [initialMessagePassingState, mapLookup] at hm
  | step s op _ ih => exact relayInv_applyOp s op ih

theorem execute_ok_chain_stats (s : MessagePassingState) (c : Nat) (now : Nat)
    (args : ExecuteMessageArgs) (s' : MessagePassingState)
    (m : CrossChainMessage) (cs : ChainMessageStats)
    (hm : mapLookup args.message_id s.pending_messages = some m)
    (hcs : mapLookup m.target_chain s.message_stats.chain_stats = some cs)
    (h : execute_message s c true now args = some (.ok s')) :
    mapLookup m.target_chain s'.message_stats.chain_stats =
      some { cs with
        messages_received := w64 (cs.messages_received + 1)
        average_gas_used :=
          w64 (w64 (cs.average_gas_used * w64 (cs.messages_received + 1)) +
               (execute_cross_chain_message m args.execution_data).gas_used) /
            w64 (w64 (cs.messages_received + 1) + 1) } := by
  by_cases hst : m.status = MessageStatus.InTransit
  · cases hrp : m.relay_proof with
    | none => simp [execute_message, hm, hst, hrp] at h
    | some rp =>
      simp [execute_message, hm, hst, hrp, hcs] at h
      subst h
      simp [mapLookup_mapInsert]
  · simp [execute_message, hm, hst] at h

end MessagePassing

namespace VerinodeContract

theorem issue_proof_auth_eq (s : ContractState) (issuer : Nat)
    (event_data hash : List Nat) (now : Nat) (n : Nat)
    (hc : s.proof_count = some n) (hn : n + 1 < U64) :
    issue_proof s issuer true event_data hash now =
      some (n + 1,
        { s with
            proofs :=
              mapInsert (n + 1)
                (recordOf (n + 1) ⟨issuer, event_data, hash, now⟩) s.proofs
            proof_count := some (n + 1) }) := by
  have hmod : (n + 1) % U64 = n + 1 := Nat.mod_eq_of_lt hn
  simp [issue_proof, hc, w64, hmod, recordOf]

theorem runIssues_go (calls : List IssueCall) :
    ∀ (s : ContractState) (n : Nat), s.proof_count = some n →
      n + calls.length < U64 →
      (runIssues s calls).1 = List.range' (n + 1) calls.length ∧
      (runIssues s calls).2.proof_count = some (n + calls.length) ∧
      (∀ j, j ≤ n → mapLookup j (runIssues s calls).2.proofs =
        mapLookup j s.proofs) ∧
      (∀ i (hi : i < calls.length),
        mapLookup (n + i + 1) (runIssues s calls).2.proofs =
          some (recordOf (n + i + 1) (calls.get ⟨i, hi⟩))) := by
  induction calls with
  | nil =>
    intro s n hc hlen
    refine ⟨rfl, by simpa using hc, fun j hj => rfl, ?_⟩
    intro i hi
    exact absurd hi (Nat.not_lt_zero i)
  | cons c cs ih =>
    intro s n hc hlen
    have hn1 : n + 1 < U64 := by
      have hl : cs.length + 1 = (c :: cs).length := rfl
      omega
    have hissue :=
      issue_proof_auth_eq s c.issuer c.event_data c.hash c.now n hc hn1
    have hrun : runIssues s (c :: cs) =
        ((n + 1) ::
          (runIssues
            { s with
                proofs :=
                  mapInsert (n + 1)
                    (recordOf (n + 1) ⟨c.issuer, c.event_data, c.hash, c.now⟩)
                    s.proofs
                proof_count := some (n + 1) } cs).1,
         (runIssues
            { s with
                proofs :=
                  mapInsert (n + 1)
                    (recordOf (n + 1) ⟨c.issuer, c.event_data, c.hash, c.now⟩)
                    s.proofs
                proof_count := some (n + 1) } cs).2) := by
      simp [runIssues, hissue]
    have hlen1 : (n + 1) + cs.length < U64 := by
      have hl : (c :: cs).length = cs.length + 1 := rfl
      omega
    obtain ⟨ih1, ih2, ih3, ih4⟩ :=
      ih { s with
            proofs :=
              mapInsert (n + 1)
                (recordOf (n + 1) ⟨c.issuer, c.event_data, c.hash, c.now⟩)
                s.proofs
            proof_count := some (n + 1) } (n + 1) rfl hlen1
    refine ⟨?_, ?_, ?_, ?_⟩
    · rw [hrun]
      show (n + 1) :: _ = List.range' (n + 1) (cs.length + 1)
      rw [List.range'_succ, ih1]
    · rw [hrun]
      show _ = some (n + (cs.length + 1))
      rw [ih2]
      congr 1
      omega
    · intro j hj
      rw [hrun]
      show mapLookup j _ = mapLookup j s.proofs
      rw [ih3 j (Nat.le_succ_of_le hj), mapLookup_mapInsert]
      have hne : ¬ (n + 1 = j) := by omega
      rw [if_neg hne]
    · intro i hi
      cases i with
      | zero =>
        rw [hrun]
        show mapLookup (n + 0 + 1) _ = _
        have h0 : n + 0 + 1 = n + 1 := by omega
        rw [h0, ih3 (n + 1) (Nat.le_refl _), mapLookup_mapInsert, if_pos rfl]
        rfl
      | succ i =>
        rw [hrun]
        have hi' : i < cs.length := by
          have hl : (c :: cs).length = cs.length + 1 := rfl
          omega
        have harith : n + (i + 1) + 1 = (n + 1) + i + 1 := by omega
        show mapLookup (n + (i + 1) + 1) _ =
          some (recordOf (n + (i + 1) + 1) (cs.get ⟨i, hi'⟩))
        rw [harith]
        exact ih4 i hi'

end VerinodeContract

/-!  Claim theorems.  -/

/-- C1 (counterexample): `redeem` succeeds for a caller (key 7) who is not
the swap's participant (key 2) and at a time (999999) past the swap's
deadline (3600), contradicting the claim that redeem succeeds only if the
caller is the participant and the current time is at most the timeout. -/
theorem c1_counterexample :
    (AtomicSwap.redeem hconst sA2 7 true 999999 ⟨"s1", [42]⟩).isOk = true ∧
    mapLookup "s1" sA2.active_swaps = some swA2 ∧
    swA2.participant = some 2 ∧ (2 : Nat) ≠ 7 ∧
    swA2.expires_at = 3600 ∧ 3600 < 999999 := by decide

/-- C1 (amended): `redeem` succeeds iff the caller signed, the swap exists
and has status `Deposited`, and the supplied secret hashes to the stored
commitment — the timeout and the caller's identity are not checked.  On
failure an error is returned and (the handler returning before
serialization) the state is unchanged; on success the swap is removed from
the active index and its id appended to `completed_swaps` (the in-place
`Redeemed`/secret update is discarded by that removal). -/
theorem c1_redeem_amended (sha : List Nat → List Nat)
    (s : AtomicSwap.SwapState) (caller : Nat) (now : Nat)
    (args : AtomicSwap.RedeemArgs) :
    ((AtomicSwap.redeem sha s caller true now args).isOk = true ↔
      ∃ sw, mapLookup args.swap_id s.active_swaps = some sw ∧
        sw.status = .Deposited ∧ sha args.secret = sw.secret_hash) ∧
    (∀ s', AtomicSwap.redeem sha s caller true now args = .ok s' →
      mapLookup args.swap_id s'.active_swaps = none ∧
      s'.completed_swaps = s.completed_swaps ++ [args.swap_id]) := by
  constructor
  · rw [AtomicSwap.redeem_isOk_iff]
    simp
  · intro s' h
    obtain ⟨sw, hm, hst, hsec, rfl⟩ :=
      AtomicSwap.redeem_ok_eq sha s caller true now args s' h
    constructor
    · show mapLookup args.swap_id (mapRemove args.swap_id s.active_swaps) = none
      rw [mapLookup_mapRemove, if_pos rfl]
    · rfl

/-- C1 (witness): the amended characterization applied at a concrete
deposited swap with a matching secret. -/
theorem c1_witness :
    (AtomicSwap.redeem hconst sA2 2 true 10 ⟨"s1", [9]⟩).isOk = true :=
  (c1_redeem_amended hconst sA2 2 10 ⟨"s1", [9]⟩).1.mpr
    ⟨swA2, by decide, by decide, by decide⟩

/-- C2 (counterexample): `participate_swap` moves the swap to status
`Deposited` while both deposit fields are still `none`, contradicting the
claim that the funded status is reached only after both deposits are
recorded. -/
theorem c2_counterexample :
    AtomicSwap.participate_swap sA1 5 true ⟨"s1", 2⟩ = .ok sA2 ∧
    mapLookup "s1" sA1.active_swaps = some swA1 ∧
    swA1.status = .Initiated ∧
    mapLookup "s1" sA2.active_swaps = some swA2 ∧
    swA2.status = .Deposited ∧
    swA2.initiator_deposit = none ∧ swA2.participant_deposit = none := by
  decide

/-- C2 (amended): status `Deposited` is reached either when a participant
joins an `Initiated` swap via `participate_swap` (irrespective of
deposits), or when `deposit` records the second of the two deposits;
`deposit` checks neither the swap status nor the deadline (it only rejects
unknown swaps, duplicate deposits, and callers who are neither the
initiator nor the participant), and a deposit that leaves one side missing
leaves the status unchanged. -/
theorem c2_funding_amended (s : AtomicSwap.SwapState) (caller : Nat)
    (now : Nat) (pargs : AtomicSwap.ParticipateSwapArgs)
    (dargs : AtomicSwap.DepositArgs) :
    (∀ s', AtomicSwap.participate_swap s caller true pargs = .ok s' →
      ∃ sw, mapLookup pargs.swap_id s.active_swaps = some sw ∧
        mapLookup pargs.swap_id s'.active_swaps =
          some { sw with participant := some pargs.participant
                         status := .Deposited }) ∧
    ((AtomicSwap.deposit s caller true now dargs).isOk = true ↔
      ∃ sw, mapLookup dargs.swap_id s.active_swaps = some sw ∧
        ((sw.initiator = caller ∧ sw.initiator_deposit = none) ∨
         (sw.initiator ≠ caller ∧ sw.participant = some caller ∧
           sw.participant_deposit = none))) ∧
    (∀ s' sw sw', AtomicSwap.deposit s caller true now dargs = .ok s' →
      mapLookup dargs.swap_id s.active_swaps = some sw →
      mapLookup dargs.swap_id s'.active_swaps = some sw' →
      sw'.status =
        (if sw'.initiator_deposit.isSome = true ∧
            sw'.participant_deposit.isSome = true
         then .Deposited else sw.status)) := by
  refine ⟨?_, ?_, ?_⟩
  · intro s' h
    obtain ⟨sw, hm, hp, hst, rfl⟩ :=
      AtomicSwap.participate_ok_eq s caller true pargs s' h
    refine ⟨sw, hm, ?_⟩
    show mapLookup pargs.swap_id (mapInsert pargs.swap_id _ _) = _
    rw [mapLookup_mapInsert, if_pos rfl]
  · rw [AtomicSwap.deposit_isOk_iff]
    simp
  · intro s' sw sw' h hm hm'
    obtain ⟨sw₀, hm₀, hcase⟩ :=
      AtomicSwap.deposit_ok_eq s caller true now dargs s' h
    obtain rfl : sw₀ = sw := Option.some.inj (hm₀.symm.trans hm)
    rcases hcase with ⟨hi, hd, rfl⟩ | ⟨hi, hp, hpd, rfl⟩
    · simp only [mapLookup_mapInsert, if_pos rfl] at hm'
      obtain rfl := Option.some.inj hm'
      cases hpd : sw₀.participant_deposit with
      | some d => simp [hpd]
      | none => simp [hpd]
    · simp only [mapLookup_mapInsert, if_pos rfl] at hm'
      obtain rfl := Option.some.inj hm'
      cases hd : sw₀.initiator_deposit with
      | some d => simp [hd]
      | none => simp [hd]

/-- C2 (witness): the amended deposit characterization applied at a
concrete deposited-status swap at a time past its deadline. -/
theorem c2_witness :
    (AtomicSwap.deposit sA2 1 true 5000 dargs0).isOk = true :=
  (c2_funding_amended sA2 1 5000 ⟨"s1", 2⟩ dargs0).2.1.mpr
    ⟨swA2, by decide, Or.inl (by decide)⟩

/-- C3 (counterexample): `refund` succeeds (returns Ok, recording the
refund request) for a swap that is still `Initiated` — not funded — and at
a time exactly equal to the deadline, not strictly past it, contradicting
the claim that refund succeeds iff status was funded and `now > timeout`;
the code also has no `NotYetExpired` error variant. -/
theorem c3_counterexample :
    (AtomicSwap.refund sA1 1 true 3600 ⟨"s1", true⟩).isOk = true ∧
    mapLookup "s1" sA1.active_swaps = some swA1 ∧
    swA1.status = .Initiated ∧ swA1.status ≠ .Deposited ∧
    swA1.expires_at = 3600 ∧ ¬ (3600 > 3600) := by decide

/-- C3 (amended): `refund` returns Ok iff the caller signed, the swap
exists, `now ≥ expires_at` (the deadline itself already qualifies), and the
caller matches the role selected by `is_initiator`; the swap's status is
not checked.  A call strictly before the deadline fails with
`InvalidArgument` (there is no `NotYetExpired` variant) and leaves state
unchanged; the swap is removed from the active index (finalized) exactly
when the other side had already requested refund. -/
theorem c3_refund_amended (s : AtomicSwap.SwapState) (caller : Nat)
    (now : Nat) (args : AtomicSwap.RefundArgs) :
    ((AtomicSwap.refund s caller true now args).isOk = true ↔
      ∃ sw, mapLookup args.swap_id s.active_swaps = some sw ∧
        sw.expires_at ≤ now ∧
        (if args.is_initiator then sw.initiator = caller
         else sw.participant = some caller)) ∧
    (∀ sw, mapLookup args.swap_id s.active_swaps = some sw →
      now < sw.expires_at →
      AtomicSwap.refund s caller true now args = .error .InvalidArgument) ∧
    (∀ s' sw, AtomicSwap.refund s caller true now args = .ok s' →
      mapLookup args.swap_id s.active_swaps = some sw →
      (mapLookup args.swap_id s'.active_swaps = none ↔
        (args.is_initiator = true ∧ sw.refund_participant = true) ∨
        (args.is_initiator = false ∧ sw.refund_initiator = true))) := by
  refine ⟨?_, ?_, ?_⟩
  · rw [AtomicSwap.refund_isOk_iff]
    simp
  · intro sw hm ht
    exact AtomicSwap.refund_before_expiry s caller now args sw hm ht
  · intro s' sw h hm
    obtain ⟨sw₀, hm₀, hle, hcase⟩ :=
      AtomicSwap.refund_ok_eq s caller true now args s' h
    obtain rfl : sw₀ = sw := Option.some.inj (hm₀.symm.trans hm)
    rcases hcase with ⟨hbi, hrole, hfin⟩ | ⟨hbi, hrole, hfin⟩
    · split at hfin
      · rename_i hcond
        subst hfin
        have hnone : mapLookup args.swap_id
            (mapRemove args.swap_id s.active_swaps) = none := by
          rw [mapLookup_mapRemove, if_pos rfl]
        simp [hnone, hbi, hcond]
      · rename_i hcond
        subst hfin
        have hsome : mapLookup args.swap_id
            (mapInsert args.swap_id { sw₀ with refund_initiator := true }
              s.active_swaps) =
            some { sw₀ with refund_initiator := true } := by
          rw [mapLookup_mapInsert, if_pos rfl]
        have hcond' : sw₀.refund_participant = false := by
          simpa using hcond
        simp [hcond'] at hsome
        simp [hsome, hbi, hcond']
    · split at hfin
      · rename_i hcond
        subst hfin
        have hnone : mapLookup args.swap_id
            (mapRemove args.swap_id s.active_swaps) = none := by
          rw [mapLookup_mapRemove, if_pos rfl]
        simp [hnone, hbi, hcond]
      · rename_i hcond
        subst hfin
        have hsome : mapLookup args.swap_id
            (mapInsert args.swap_id { sw₀ with refund_participant := true }
              s.active_swaps) =
            some { sw₀ with refund_participant := true } := by
          rw [mapLookup_mapInsert, if_pos rfl]
        have hcond' : sw₀.refund_initiator = false := by
          simpa using hcond
        simp [hcond'] at hsome
        simp [hsome, hbi, hcond']

/-- C3 (witness): the amended characterization applied at a concrete swap
at its deadline. -/
theorem c3_witness :
    (AtomicSwap.refund sA1 1 true 3600 ⟨"s1", true⟩).isOk = true :=
  (c3_refund_amended sA1 1 3600 ⟨"s1", true⟩).1.mpr
    ⟨swA1, by decide, by decide, by decide⟩

/-- C4: on a supported chain, a merkle path that fails to re-derive the
root yields `MalformedProof`, and a path that does re-derive the root
combined with a signature whose length is not 65 bytes yields `Invalid`. -/
theorem c4_malformed_and_invalid (sha : List Nat → List Nat)
    (p : ChainVerifier.ChainProof)
    (chains : List (Nat × ChainVerifier.ChainVerificationConfig)) (now : Nat)
    (cfg : ChainVerifier.ChainVerificationConfig)
    (hc : mapLookup p.chain_id chains = some cfg) :
    (ChainVerifier.verify_merkle_proof sha p.merkle_root p.merkle_proof =
        false →
      ChainVerifier.perform_verification sha p chains now = .MalformedProof) ∧
    (ChainVerifier.verify_merkle_proof sha p.merkle_root p.merkle_proof =
        true →
      p.verifier_signature.length ≠ 65 →
      ChainVerifier.perform_verification sha p chains now = .Invalid) := by
  constructor
  · intro hmk
    simp [ChainVerifier.perform_verification, hc, hmk]
  · intro hmk hlen
    have hsig : ChainVerifier.verify_transaction_signature sha
        p.transaction_hash p.verifier_signature = false := by
      simp [ChainVerifier.verify_transaction_signature, hlen]
    simp [ChainVerifier.perform_verification, hc, hmk, hsig]

/-- C4 (witness): a broken merkle path gives `MalformedProof`; a good path
with an empty signature gives `Invalid`. -/
theorem c4_witness :
    ChainVerifier.perform_verification hconst proofNoPath [(1, cfg1)] 0 =
      .MalformedProof ∧
    ChainVerifier.perform_verification hconst proofShortSig [(1, cfg1)] 0 =
      .Invalid :=
  ⟨(c4_malformed_and_invalid hconst proofNoPath [(1, cfg1)] 0 cfg1
      (by decide)).1 (by decide),
   (c4_malformed_and_invalid hconst proofShortSig [(1, cfg1)] 0 cfg1
      (by decide)).2 (by decide) (by decide)⟩

/-- C5 (counterexample): `perform_verification` reads the clock for its
staleness check, so identical proof and chain-configuration inputs give
different results at different times — verification is not a pure function
of the proof and configuration alone. -/
theorem c5_counterexample :
    ChainVerifier.perform_verification hconst proofGood [(1, cfg1)] 0 =
      .Valid ∧
    ChainVerifier.perform_verification hconst proofGood [(1, cfg1)] 101 =
      .Expired ∧
    ChainVerifier.VerificationResult.Valid ≠ .Expired := by decide

/-- C5 (amended): verification is a deterministic pure function of the
proof, the chain configuration, and the current clock reading: two runs on
identical proof, configuration and time inputs yield identical results. -/
theorem c5_deterministic_amended (sha : List Nat → List Nat)
    (p : ChainVerifier.ChainProof)
    (chains : List (Nat × ChainVerifier.ChainVerificationConfig))
    (t₁ t₂ : Nat) (h : t₁ = t₂) :
    ChainVerifier.perform_verification sha p chains t₁ =
      ChainVerifier.perform_verification sha p chains t₂ := by rw [h]

/-- C5 (witness): determinism at a concrete proof, configuration and
time. -/
theorem c5_witness :
    ChainVerifier.perform_verification hconst proofGood [(1, cfg1)] 0 =
      ChainVerifier.perform_verification hconst proofGood [(1, cfg1)] 0 :=
  c5_deterministic_amended hconst proofGood [(1, cfg1)] 0 0 rfl

/-- C6 (counterexample): with `confirmation_blocks = 6` and
`block_time = 10`, a proof of age 500 exceeds
`confirmation_blocks * block_time = 60`, yet the code reports `Valid`
because its threshold is the hard-coded `block_time * 100 = 1000` —
`confirmation_blocks` plays no part in the staleness check. -/
theorem c6_counterexample :
    ChainVerifier.verify_merkle_proof hconst proofGood.merkle_root
      proofGood.merkle_proof = true ∧
    ChainVerifier.verify_transaction_signature hconst
      proofGood.transaction_hash proofGood.verifier_signature = true ∧
    proofGood.timestamp = 0 ∧
    500 > cfg2.confirmation_blocks * cfg2.block_time ∧
    ChainVerifier.perform_verification hconst proofGood [(1, cfg2)] 500 =
      .Valid ∧
    ChainVerifier.VerificationResult.Valid ≠ .Expired := by decide

/-- C6 (amended): for a proof on a supported chain that passes the merkle
and signature checks, the result is `Expired` iff the current time exceeds
`timestamp + block_time * 100` (wrapping u64 arithmetic); the configured
`confirmation_blocks` is not consulted. -/
theorem c6_expiry_amended (sha : List Nat → List Nat)
    (p : ChainVerifier.ChainProof)
    (chains : List (Nat × ChainVerifier.ChainVerificationConfig)) (now : Nat)
    (cfg : ChainVerifier.ChainVerificationConfig)
    (hc : mapLookup p.chain_id chains = some cfg)
    (hmk : ChainVerifier.verify_merkle_proof sha p.merkle_root
      p.merkle_proof = true)
    (hsig : ChainVerifier.verify_transaction_signature sha
      p.transaction_hash p.verifier_signature = true) :
    ChainVerifier.perform_verification sha p chains now = .Expired ↔
      now > w64 (p.timestamp + w64 (cfg.block_time * 100)) := by
  by_cases ht : now > w64 (p.timestamp + w64 (cfg.block_time * 100))
  · simp [ChainVerifier.perform_verification, hc, hmk, hsig, ht]
  · simp [ChainVerifier.perform_verification, hc, hmk, hsig, ht]

/-- C6 (witness): the amended threshold applied at a concrete proof of age
101 with `block_time = 1`. -/
theorem c6_witness :
    ChainVerifier.perform_verification hconst proofGood [(1, cfg1)] 101 =
      .Expired ∧
    101 > w64 (proofGood.timestamp + w64 (cfg1.block_time * 100)) :=
  ⟨(c6_expiry_amended hconst proofGood [(1, cfg1)] 101 cfg1 (by decide)
      (by decide) (by decide)).mpr (by decide),
   by decide⟩

/-- C7: starting from a freshly initialized contract state, a sequence of
N successful `issue_proof` calls returns the ids `1, 2, …, N` in order (the
Nth call returns id N), and id `i + 1` stores exactly the record created
by call `i` in the final state — no id is ever reused for a different
record. -/
theorem c7_monotonic_ids (admin : Nat)
    (calls : List VerinodeContract.IssueCall) (hlen : calls.length < U64) :
    (VerinodeContract.runIssues (VerinodeContract.initialContractState admin)
        calls).1 = List.range' 1 calls.length ∧
    (∀ i (hi : i < calls.length),
      mapLookup (i + 1)
          (VerinodeContract.runIssues
            (VerinodeContract.initialContractState admin) calls).2.proofs =
        some (VerinodeContract.recordOf (i + 1) (calls.get ⟨i, hi⟩))) := by
  obtain ⟨h1, h2, h3, h4⟩ := VerinodeContract.runIssues_go calls
    (VerinodeContract.initialContractState admin) 0 rfl (by simpa using hlen)
  constructor
  · simpa using h1
  · intro i hi
    simpa using h4 i hi

/-- C7 (witness): two issue calls from a fresh state return ids 1 and 2. -/
theorem c7_witness :
    (VerinodeContract.runIssues (VerinodeContract.initialContractState 0)
        [⟨5, [1], [2], 0⟩, ⟨6, [3], [4], 7⟩]).1 = [1, 2] := by
  have h := (c7_monotonic_ids 0 [⟨5, [1], [2], 0⟩, ⟨6, [3], [4], 7⟩]
    (by decide)).1
  rw [h]
  decide

/-- C8 (counterexample): on the first completed swap (0 prior samples,
average 0, duration 10), the claimed update formula
`(old_avg * n + sample) / (n + 1)` with `n = 0` gives 10, but the code
increments the completion counter before averaging and stores
`(0 * 1 + 10) / 2 = 5`. -/
theorem c8_counterexample :
    AtomicSwap.redeem hconst sA2 2 true 10 ⟨"s1", [9]⟩ = .ok sA3 ∧
    sA2.swap_stats.average_swap_time = 0 ∧
    sA2.swap_stats.completed_swaps = 0 ∧
    mapLookup "s1" sA2.active_swaps = some swA2 ∧ swA2.created_at = 0 ∧
    sA3.swap_stats.average_swap_time = 5 ∧
    (0 * 0 + 10) / (0 + 1) = 10 ∧ (5 : Nat) ≠ 10 := by decide

/-- C8 (amended): both rolling averages are updated with the counter
already incremented for the sample being recorded: with `n` samples
before the update (counter = n, no overflow), the new average is
`(old_avg * (n + 1) + sample) / (n + 2)` — for the swap-time average on
`redeem` (sample = wrapping `now - created_at`) and for the per-chain gas
average on `execute_message` alike. -/
theorem c8_rolling_average_amended (sha : List Nat → List Nat)
    (s : AtomicSwap.SwapState) (caller now : Nat)
    (args : AtomicSwap.RedeemArgs) (s' : AtomicSwap.SwapState)
    (sw : AtomicSwap.Swap)
    (hm : mapLookup args.swap_id s.active_swaps = some sw)
    (h : AtomicSwap.redeem sha s caller true now args = .ok s')
    (h1 : s.swap_stats.average_swap_time * (s.swap_stats.completed_swaps + 1) +
            w64sub now sw.created_at < U64)
    (h2 : s.swap_stats.completed_swaps + 2 < U64)
    (ms : MessagePassing.MessagePassingState) (mcaller mnow : Nat)
    (margs : MessagePassing.ExecuteMessageArgs)
    (ms' : MessagePassing.MessagePassingState)
    (m : MessagePassing.CrossChainMessage)
    (cs : MessagePassing.ChainMessageStats)
    (hmm : mapLookup margs.message_id ms.pending_messages = some m)
    (hcs : mapLookup m.target_chain ms.message_stats.chain_stats = some cs)
    (hex : MessagePassing.execute_message ms mcaller true mnow margs =
      some (.ok ms'))
    (h3 : cs.average_gas_used * (cs.messages_received + 1) +
            (MessagePassing.execute_cross_chain_message m
              margs.execution_data).gas_used < U64)
    (h4 : cs.messages_received + 2 < U64) :
    s'.swap_stats.average_swap_time =
      (s.swap_stats.average_swap_time * (s.swap_stats.completed_swaps + 1) +
        w64sub now sw.created_at) / (s.swap_stats.completed_swaps + 2) ∧
    (mapLookup m.target_chain ms'.message_stats.chain_stats).map
        MessagePassing.ChainMessageStats.average_gas_used =
      some ((cs.average_gas_used * (cs.messages_received + 1) +
        (MessagePassing.execute_cross_chain_message m
          margs.execution_data).gas_used) / (cs.messages_received + 2)) := by
  obtain ⟨sw₀, hm₀, hst, hsec, rfl⟩ :=
    AtomicSwap.redeem_ok_eq sha s caller true now args s' h
  obtain rfl : sw₀ = sw := Option.some.inj (hm₀.symm.trans hm)
  constructor
  · have hlt1 : s.swap_stats.completed_swaps + 1 < U64 := by omega
    have hc1 : w64 (s.swap_stats.completed_swaps + 1) =
        s.swap_stats.completed_swaps + 1 := Nat.mod_eq_of_lt hlt1
    have hmul : w64 (s.swap_stats.average_swap_time *
        (s.swap_stats.completed_swaps + 1)) =
        s.swap_stats.average_swap_time *
          (s.swap_stats.completed_swaps + 1) :=
      Nat.mod_eq_of_lt (by omega)
    have hadd : w64 (s.swap_stats.average_swap_time *
        (s.swap_stats.completed_swaps + 1) + w64sub now sw₀.created_at) =
        s.swap_stats.average_swap_time *
          (s.swap_stats.completed_swaps + 1) + w64sub now sw₀.created_at :=
      Nat.mod_eq_of_lt h1
    have hc2 : w64 (s.swap_stats.completed_swaps + 1 + 1) =
        s.swap_stats.completed_swaps + 2 := by
      have e : s.swap_stats.completed_swaps + 1 + 1 =
          s.swap_stats.completed_swaps + 2 := by omega
      rw [e]
      exact Nat.mod_eq_of_lt h2
    show w64 (w64 (s.swap_stats.average_swap_time *
        w64 (s.swap_stats.completed_swaps + 1)) + w64sub now sw₀.created_at) /
        w64 (w64 (s.swap_stats.completed_swaps + 1) + 1) = _
    rw [hc1, hmul, hadd, hc2]
  · have hlk := MessagePassing.execute_ok_chain_stats ms mcaller mnow margs
      ms' m cs hmm hcs hex
    have hr1 : w64 (cs.messages_received + 1) = cs.messages_received + 1 :=
      Nat.mod_eq_of_lt (by omega)
    have hmul2 : w64 (cs.average_gas_used * (cs.messages_received + 1)) =
        cs.average_gas_used * (cs.messages_received + 1) :=
      Nat.mod_eq_of_lt (by omega)
    have hadd2 : w64 (cs.average_gas_used * (cs.messages_received + 1) +
        (MessagePassing.execute_cross_chain_message m
          margs.execution_data).gas_used) =
        cs.average_gas_used * (cs.messages_received + 1) +
          (MessagePassing.execute_cross_chain_message m
            margs.execution_data).gas_used :=
      Nat.mod_eq_of_lt h3
    have hr2 : w64 (cs.messages_received + 1 + 1) = cs.messages_received + 2 := by
      have e : cs.messages_received + 1 + 1 = cs.messages_received + 2 := by
        omega
      rw [e]
      exact Nat.mod_eq_of_lt h4
    rw [hlk]
    show some (w64 (w64 (cs.average_gas_used * w64 (cs.messages_received + 1)) +
        (MessagePassing.execute_cross_chain_message m
          margs.execution_data).gas_used) /
        w64 (w64 (cs.messages_received + 1) + 1)) = _
    rw [hr1, hmul2, hadd2, hr2]

/-- C8 (witness): the amended formula at the first sample of each average:
the swap average becomes `(0 * 1 + 10) / 2 = 5` and the chain gas average
becomes `(0 * 1 + 20) / 2 = 10`. -/
theorem c8_witness :
    sA3.swap_stats.average_swap_time = 5 ∧
    (mapLookup 1 mp5.message_stats.chain_stats).map
      MessagePassing.ChainMessageStats.average_gas_used = some 10 := by
  have h := c8_rolling_average_amended hconst sA2 2 10 ⟨"s1", [9]⟩ sA3 swA2
    (by decide) (by decide) (by decide) (by decide)
    mp4 2 10 ⟨"m1", [7]⟩ mp5 msgM1 csM1
    (by decide) (by decide) (by decide) (by decide) (by decide)
  exact ⟨h.1.trans (by decide), h.2.trans (by decide)⟩

/-- C9: in every reachable swap state, an active swap record's `secret` is
set iff its status is `Redeemed` (both sides are in fact always false for
records still in `active_swaps`, since `redeem` removes the swap it
updates). -/
theorem c9_secret_iff_redeemed (a : Nat) (s : AtomicSwap.SwapState)
    (id : String) (sw : AtomicSwap.Swap) (h : AtomicSwap.Reachable a s)
    (hsw : mapLookup id s.active_swaps = some sw) :
    sw.secret.isSome = true ↔ sw.status = .Redeemed := by
  obtain ⟨h1, h2⟩ := AtomicSwap.secretInv_reachable a s h id sw hsw
  constructor
  · intro hs
    rw [h1] at hs
    simp at hs
  · intro hs
    exact absurd hs h2

/-- C9 (witness): the invariant at the reachable state `sA2` and its
active record. -/
theorem c9_witness :
    swA2.secret.isSome = true ↔
      swA2.status = AtomicSwap.SwapStatus.Redeemed :=
  c9_secret_iff_redeemed 9 sA2 "s1" swA2
    (AtomicSwap.Reachable.step sA1 _
      (AtomicSwap.Reachable.step _ _ AtomicSwap.Reachable.init))
    (by decide)

/-- C10: in every reachable message-passing state, `execute_message` never
reaches the `unwrap` panic on `relay_proof`: every pending message that
passes the `InTransit` status check carries a relay proof, because
`relay_message` always attaches one before setting `InTransit`. -/
theorem c10_no_unwrap_panic (a f : Nat)
    (s : MessagePassing.MessagePassingState)
    (h : MessagePassing.Reachable a f s) (caller : Nat) (signer : Bool)
    (now : Nat) (args : MessagePassing.ExecuteMessageArgs) :
    MessagePassing.execute_message s caller signer now args ≠ none := by
  have hinv := MessagePassing.relayInv_reachable a f s h
  cases signer with
  | false => simp [MessagePassing.execute_message]
  | true =>
    cases hm : mapLookup args.message_id s.pending_messages with
    | none => simp [MessagePassing.execute_message, hm]
    | some m =>
      by_cases hst : m.status = MessagePassing.MessageStatus.InTransit
      · have hrp := hinv args.message_id m hm hst
        cases hrpc : m.relay_proof with
        | none =>
          rw [hrpc] at hrp
          simp at hrp
        | some rp => simp [MessagePassing.execute_message, hm, hst, hrpc]
      · simp [MessagePassing.execute_message, hm, hst]

/-- C10 (witness): no panic at the reachable state `mp4`, whose message
"m1" is `InTransit` with a relay proof attached. -/
theorem c10_witness :
    MessagePassing.execute_message mp4 2 true 10 ⟨"m1", [7]⟩ ≠ none :=
  c10_no_unwrap_panic 9 0 mp4
    (MessagePassing.Reachable.step mp3 _
      (MessagePassing.Reachable.step mp2 _
        (MessagePassing.Reachable.step mp1 _
          (MessagePassing.Reachable.step _ _ MessagePassing.Reachable.init))))
    2 true 10 ⟨"m1", [7]⟩

end Verinode
